import Mathlib

set_option maxHeartbeats 1000000

/-!
Shallow embedding of the MoQT validator (`main.go`) and proofs about it.

Wire buffers are modelled as `List Nat` (each element one byte, `< 256` on
real inputs); Go's `io.Reader` position is modelled by returning the unread
rest of the list.  Go `uint64` arithmetic that can wrap is modelled with
explicit `% 2 ^ 64`.  Stateful methods of `MoQTValidator` take the state and
return the (possibly mutated) state next to the `Except` result, mirroring
the fact that Go mutates the receiver in place even when a later step of the
same message fails.
-/

/-- Error kinds of the validator, mirroring the Go error values: errors
wrapped with `ErrValidation`, errors wrapped with `ErrProtocolViolation`, the
raw `io.EOF` and `io.ErrUnexpectedEOF` conditions surfaced by
`VarInt.Decode`/`io.ReadFull`, and `errors.New("VarInt value too large")`
from `VarInt.Encode`. -/
inductive VErr where
  | validation (msg : String)
  | protocol (msg : String)
  | eof
  | unexpectedEof
  | varIntTooLarge
  deriving DecidableEq, Repr

/-- Model of `io.ReadFull` on a list reader: the `n` bytes read plus the
unread rest; `io.EOF` when the reader is empty (and `n > 0`),
`io.ErrUnexpectedEOF` on a partial read. `n = 0` always succeeds. -/
def readFull (n : Nat) (data : List Nat) : Except VErr (List Nat × List Nat) :=
  if n ≤ data.length then .ok (data.take n, data.drop n)
  else if data.length = 0 then .error .eof
  else .error .unexpectedEof

namespace VarInt

/-- Go `VarInt.Encode`: QUIC variable-length integer encoding into 1/2/4/8
bytes.  `binary.BigEndian.PutUintN(buf, value|mask)` is modelled by listing
the big-endian bytes of `value ||| mask` explicitly
(`byte(x >> s) = x >>> s &&& 0xFF`). -/
def Encode (value : Nat) : Except VErr (List Nat) :=
  if value < 0x40 then
    .ok [value]
  else if value < 0x4000 then
    let x := value ||| 0x4000
    .ok [x >>> 8 &&& 0xFF, x &&& 0xFF]
  else if value < 0x40000000 then
    let x := value ||| 0x80000000
    .ok [x >>> 24 &&& 0xFF, x >>> 16 &&& 0xFF, x >>> 8 &&& 0xFF, x &&& 0xFF]
  else if value < 0x4000000000000000 then
    let x := value ||| 0xC000000000000000
    .ok [x >>> 56 &&& 0xFF, x >>> 48 &&& 0xFF, x >>> 40 &&& 0xFF, x >>> 32 &&& 0xFF,
         x >>> 24 &&& 0xFF, x >>> 16 &&& 0xFF, x >>> 8 &&& 0xFF, x &&& 0xFF]
  else .error .varIntTooLarge

/-- Go `VarInt.Decode`: reads the first byte, derives the length class from
its two most-significant bits, reads the remaining bytes of the class and
returns the masked big-endian value, the consumed byte count, and the unread
rest.  A truncated buffer yields the error `io.ReadFull` produces there
(`io.EOF` when nothing was available, `io.ErrUnexpectedEOF` on a partial
read); the consumed-count Go reports alongside an error is dropped. -/
def Decode (data : List Nat) : Except VErr (Nat × Nat × List Nat) :=
  match data with
  | [] => .error .eof
  | b0 :: rest =>
    match b0 >>> 6 with
    | 0 => .ok (b0, 1, rest)
    | 1 =>
      match rest with
      | [] => .error .eof
      | b1 :: r => .ok ((b0 * 2 ^ 8 + b1) &&& 0x3FFF, 2, r)
    | 2 =>
      match rest with
      | b1 :: b2 :: b3 :: r =>
        .ok ((b0 * 2 ^ 24 + b1 * 2 ^ 16 + b2 * 2 ^ 8 + b3) &&& 0x3FFFFFFF, 4, r)
      | [] => .error .eof
      | _ => .error .unexpectedEof
    | _ =>
      match rest with
      | b1 :: b2 :: b3 :: b4 :: b5 :: b6 :: b7 :: r =>
        .ok ((b0 * 2 ^ 56 + b1 * 2 ^ 48 + b2 * 2 ^ 40 + b3 * 2 ^ 32 +
              b4 * 2 ^ 24 + b5 * 2 ^ 16 + b6 * 2 ^ 8 + b7) &&& 0x3FFFFFFFFFFFFFFF, 8, r)
      | [] => .error .eof
      | _ => .error .unexpectedEof

end VarInt

/-- Total byte-string form of `VarInt.Encode`, used to build concrete wire
messages in statements (empty on the unreachable too-large case). -/
def vi (v : Nat) : List Nat :=
  match VarInt.Encode v with
  | .ok bs => bs
  | .error _ => []

/-- Disjoint-bit `or` is addition: `v ||| (2 ^ k * a) = 2 ^ k * a + v` for
`v < 2 ^ k`; bridges the `value | mask` writes in `VarInt.Encode` to plain
arithmetic. -/
theorem lor_mask_eq_add {v k a : Nat} (h : v < 2 ^ k) :
    v ||| (2 ^ k * a) = 2 ^ k * a + v := by
  rw [Nat.or_comm]
  exact (Nat.mul_add_lt_is_or h a).symm

theorem and_255_eq_mod (x : Nat) : x &&& 255 = x % 256 := by
  simpa using Nat.and_pow_two_sub_one_eq_mod x 8

theorem and_16383_eq_mod (x : Nat) : x &&& 16383 = x % 16384 := by
  simpa using Nat.and_pow_two_sub_one_eq_mod x 14

theorem and_2p30_eq_mod (x : Nat) : x &&& 0x3FFFFFFF = x % 2 ^ 30 := by
  simpa using Nat.and_pow_two_sub_one_eq_mod x 30

theorem and_2p62_eq_mod (x : Nat) : x &&& 0x3FFFFFFFFFFFFFFF = x % 2 ^ 62 := by
  simpa using Nat.and_pow_two_sub_one_eq_mod x 62

theorem VarInt.Decode_cons_p0 {b0 : Nat} (h : b0 >>> 6 = 0) (rest : List Nat) :
    VarInt.Decode (b0 :: rest) = .ok (b0, 1, rest) := by
  simp only [VarInt.Decode]; rw [h]

theorem VarInt.Decode_cons_p1 {b0 : Nat} (h : b0 >>> 6 = 1) (b1 : Nat) (rest : List Nat) :
    VarInt.Decode (b0 :: b1 :: rest) = .ok ((b0 * 2 ^ 8 + b1) &&& 0x3FFF, 2, rest) := by
  simp only [VarInt.Decode]; rw [h]

theorem VarInt.Decode_cons_p2 {b0 : Nat} (h : b0 >>> 6 = 2) (b1 b2 b3 : Nat) (rest : List Nat) :
    VarInt.Decode (b0 :: b1 :: b2 :: b3 :: rest) =
      .ok ((b0 * 2 ^ 24 + b1 * 2 ^ 16 + b2 * 2 ^ 8 + b3) &&& 0x3FFFFFFF, 4, rest) := by
  simp only [VarInt.Decode]; rw [h]

theorem VarInt.Decode_cons_p3 {b0 : Nat} (h : b0 >>> 6 = 3) (b1 b2 b3 b4 b5 b6 b7 : Nat)
    (rest : List Nat) :
    VarInt.Decode (b0 :: b1 :: b2 :: b3 :: b4 :: b5 :: b6 :: b7 :: rest) =
      .ok ((b0 * 2 ^ 56 + b1 * 2 ^ 48 + b2 * 2 ^ 40 + b3 * 2 ^ 32 +
            b4 * 2 ^ 24 + b5 * 2 ^ 16 + b6 * 2 ^ 8 + b7) &&& 0x3FFFFFFFFFFFFFFF, 8, rest) := by
  simp only [VarInt.Decode]; rw [h]

/-- Round trip with a continuation: decoding an encoded value at the head of
a longer buffer yields the value, the encoded length, and the untouched
tail. -/
theorem VarInt.Decode_Encode_append {v : Nat} {bs : List Nat}
    (h : VarInt.Encode v = .ok bs) (rest : List Nat) :
    VarInt.Decode (bs ++ rest) = .ok (v, bs.length, rest) := by
  by_cases h1 : v < 0x40
  · rw [VarInt.Encode, if_pos h1] at h
    cases h
    have hp : v >>> 6 = 0 := by rw [Nat.shiftRight_eq_div_pow]; omega
    simpa using VarInt.Decode_cons_p0 hp rest
  by_cases h2 : v < 0x4000
  · rw [VarInt.Encode, if_neg h1, if_pos h2] at h
    simp only [] at h
    have hx : v ||| 0x4000 = 0x4000 + v := by
      have := @lor_mask_eq_add v 14 1 (by omega)
      norm_num at this
      omega
    rw [hx] at h
    cases h
    simp only [Nat.shiftRight_eq_div_pow, and_255_eq_mod, List.cons_append, List.nil_append]
    rw [VarInt.Decode_cons_p1 (by rw [Nat.shiftRight_eq_div_pow]; omega)]
    rw [and_16383_eq_mod]
    norm_num
    omega
  by_cases h3 : v < 0x40000000
  · rw [VarInt.Encode, if_neg h1, if_neg h2, if_pos h3] at h
    simp only [] at h
    have hx : v ||| 0x80000000 = 0x80000000 + v := by
      have := @lor_mask_eq_add v 31 1 (by omega)
      norm_num at this
      omega
    rw [hx] at h
    cases h
    simp only [Nat.shiftRight_eq_div_pow, and_255_eq_mod, List.cons_append, List.nil_append]
    rw [VarInt.Decode_cons_p2 (by rw [Nat.shiftRight_eq_div_pow]; omega)]
    rw [and_2p30_eq_mod]
    norm_num
    omega
  by_cases h4 : v < 0x4000000000000000
  · rw [VarInt.Encode, if_neg h1, if_neg h2, if_neg h3, if_pos h4] at h
    simp only [] at h
    have hx : v ||| 0xC000000000000000 = 0xC000000000000000 + v := by
      have := @lor_mask_eq_add v 62 3 (by omega)
      norm_num at this
      omega
    rw [hx] at h
    cases h
    simp only [Nat.shiftRight_eq_div_pow, and_255_eq_mod, List.cons_append, List.nil_append]
    rw [VarInt.Decode_cons_p3 (by rw [Nat.shiftRight_eq_div_pow]; omega)]
    rw [and_2p62_eq_mod]
    norm_num
    omega
  · rw [VarInt.Encode, if_neg h1, if_neg h2, if_neg h3, if_neg h4] at h
    cases h

/-- For every value below `2 ^ 62`, `Encode` returns some byte string. -/
theorem VarInt.Encode_isOk {v : Nat} (h : v < 2 ^ 62) : ∃ bs, VarInt.Encode v = .ok bs := by
  by_cases h1 : v < 0x40
  · exact ⟨_, by rw [VarInt.Encode, if_pos h1]⟩
  by_cases h2 : v < 0x4000
  · exact ⟨_, by rw [VarInt.Encode, if_neg h1, if_pos h2]⟩
  by_cases h3 : v < 0x40000000
  · exact ⟨_, by rw [VarInt.Encode, if_neg h1, if_neg h2, if_pos h3]⟩
  · exact ⟨_, by rw [VarInt.Encode, if_neg h1, if_neg h2, if_neg h3, if_pos (by omega)]⟩

/-- For every value below `2 ^ 62`, `Encode` succeeds with the bytes `vi v`. -/
theorem VarInt.Encode_ok {v : Nat} (h : v < 2 ^ 62) : VarInt.Encode v = .ok (vi v) := by
  obtain ⟨bs, hbs⟩ := VarInt.Encode_isOk h
  rw [hbs]
  unfold vi
  rw [hbs]

/-- For every value at or above `2 ^ 62`, `Encode` fails with the
`VarInt value too large` error. -/
theorem VarInt.Encode_fail {v : Nat} (h : 2 ^ 62 ≤ v) :
    VarInt.Encode v = .error .varIntTooLarge := by
  unfold VarInt.Encode
  rw [if_neg (by omega), if_neg (by omega), if_neg (by omega), if_neg (by omega)]

/-- Decoding `vi v ++ rest` recovers `v` and leaves `rest`. -/
theorem VarInt.Decode_vi_append {v : Nat} (h : v < 2 ^ 62) (rest : List Nat) :
    VarInt.Decode (vi v ++ rest) = .ok (v, (vi v).length, rest) :=
  VarInt.Decode_Encode_append (VarInt.Encode_ok h) rest

theorem VarInt.Decode_cons_p3_of {b0 k : Nat} (h : b0 >>> 6 = k + 3) (b1 b2 b3 b4 b5 b6 b7 : Nat)
    (rest : List Nat) :
    VarInt.Decode (b0 :: b1 :: b2 :: b3 :: b4 :: b5 :: b6 :: b7 :: rest) =
      .ok ((b0 * 2 ^ 56 + b1 * 2 ^ 48 + b2 * 2 ^ 40 + b3 * 2 ^ 32 +
            b4 * 2 ^ 24 + b5 * 2 ^ 16 + b6 * 2 ^ 8 + b7) &&& 0x3FFFFFFFFFFFFFFF, 8, rest) := by
  simp only [VarInt.Decode]; rw [h]; rfl

/-- Inversion for a successful decode: the buffer splits as the consumed
bytes followed by the rest, the consumed count is the length of the consumed
prefix (at least one byte), and decoding is determined by that prefix alone. -/
theorem VarInt.Decode_ok_inv {data : List Nat} {v n : Nat} {rest : List Nat}
    (h : VarInt.Decode data = .ok (v, n, rest)) :
    ∃ pre, data = pre ++ rest ∧ pre.length = n ∧ 1 ≤ n ∧
      ∀ rest2, VarInt.Decode (pre ++ rest2) = .ok (v, n, rest2) := by
  match data with
  | [] => simp [VarInt.Decode] at h
  | b0 :: r =>
    simp only [VarInt.Decode] at h
    rcases hp : b0 >>> 6 with _ | _ | _ | k
    all_goals rw [hp] at h
    · obtain ⟨rfl, rfl, rfl⟩ : b0 = v ∧ 1 = n ∧ r = rest := by
        simpa using h
      exact ⟨[b0], by simp, by simp, by simp, fun rest2 => VarInt.Decode_cons_p0 hp rest2⟩
    · match r with
      | [] => simp at h
      | b1 :: r2 =>
        obtain ⟨rfl, rfl, rfl⟩ :
            (b0 * 2 ^ 8 + b1) &&& 0x3FFF = v ∧ 2 = n ∧ r2 = rest := by simpa using h
        exact ⟨[b0, b1], by simp, by simp, by simp,
          fun rest2 => VarInt.Decode_cons_p1 hp b1 rest2⟩
    · match r with
      | [] => simp at h
      | [b1] => simp at h
      | [b1, b2] => simp at h
      | b1 :: b2 :: b3 :: r2 =>
        obtain ⟨rfl, rfl, rfl⟩ :
            (b0 * 2 ^ 24 + b1 * 2 ^ 16 + b2 * 2 ^ 8 + b3) &&& 0x3FFFFFFF = v ∧ 4 = n ∧
              r2 = rest := by simpa using h
        exact ⟨[b0, b1, b2, b3], by simp, by simp, by simp,
          fun rest2 => VarInt.Decode_cons_p2 hp b1 b2 b3 rest2⟩
    · match r with
      | [] => simp at h
      | [b1] => simp at h
      | [b1, b2] => simp at h
      | [b1, b2, b3] => simp at h
      | [b1, b2, b3, b4] => simp at h
      | [b1, b2, b3, b4, b5] => simp at h
      | [b1, b2, b3, b4, b5, b6] => simp at h
      | b1 :: b2 :: b3 :: b4 :: b5 :: b6 :: b7 :: r2 =>
        obtain ⟨rfl, rfl, rfl⟩ :
            (b0 * 2 ^ 56 + b1 * 2 ^ 48 + b2 * 2 ^ 40 + b3 * 2 ^ 32 +
              b4 * 2 ^ 24 + b5 * 2 ^ 16 + b6 * 2 ^ 8 + b7) &&& 0x3FFFFFFFFFFFFFFF = v ∧
              8 = n ∧ r2 = rest := by simpa using h
        exact ⟨[b0, b1, b2, b3, b4, b5, b6, b7], by simp, by simp, by simp,
          fun rest2 => VarInt.Decode_cons_p3_of hp b1 b2 b3 b4 b5 b6 b7 rest2⟩

/-- A successful decode consumes at least one byte and exactly `n` bytes. -/
theorem VarInt.Decode_consumes {data : List Nat} {v n : Nat} {rest : List Nat}
    (h : VarInt.Decode data = .ok (v, n, rest)) :
    rest.length + n = data.length ∧ 1 ≤ n := by
  obtain ⟨pre, rfl, hlen, hn, -⟩ := VarInt.Decode_ok_inv h
  simp [hlen.symm]
  omega

theorem VarInt.Decode_rest_lt {data : List Nat} {v n : Nat} {rest : List Nat}
    (h : VarInt.Decode data = .ok (v, n, rest)) : rest.length < data.length := by
  have := VarInt.Decode_consumes h
  omega

theorem readFull_ok_inv {n : Nat} {data bs rest : List Nat}
    (h : readFull n data = .ok (bs, rest)) :
    bs = data.take n ∧ rest = data.drop n ∧ n ≤ data.length ∧ bs.length = n ∧
      rest.length + n = data.length := by
  unfold readFull at h
  split at h
  · refine ⟨by simpa using (Prod.mk.injEq _ _ _ _ ▸ Except.ok.inj h).1.symm, ?_, ?_, ?_, ?_⟩
    · exact (Prod.mk.injEq _ _ _ _ ▸ Except.ok.inj h).2.symm
    · assumption
    · obtain ⟨h1, h2⟩ := Prod.mk.inj (Except.ok.inj h)
      subst h1
      simp
      omega
    · obtain ⟨h1, h2⟩ := Prod.mk.inj (Except.ok.inj h)
      subst h2
      simp
      omega
  · split at h <;> exact Except.noConfusion h

theorem readFull_exact (a rest : List Nat) : readFull a.length (a ++ rest) = .ok (a, rest) := by
  unfold readFull
  rw [if_pos (by simp)]
  simp

/-! Protocol constants, as declared in `main.go`. -/

def ClientSetup : Nat := 0x20
def ServerSetup : Nat := 0x21
def Goaway : Nat := 0x10
def MaxRequestID : Nat := 0x15
def RequestsBlocked : Nat := 0x1A
def Subscribe : Nat := 0x3
def SubscribeOK : Nat := 0x4
def SubscribeError : Nat := 0x5
def Unsubscribe : Nat := 0xA
def SubscribeUpdate : Nat := 0x2
def SubscribeDone : Nat := 0xB
def Fetch : Nat := 0x16
def FetchOK : Nat := 0x18
def FetchError : Nat := 0x19
def FetchCancel : Nat := 0x17
def TrackStatusRequest : Nat := 0xD
def TrackStatus : Nat := 0xE
def Announce : Nat := 0x6
def AnnounceOK : Nat := 0x7
def AnnounceError : Nat := 0x8
def Unannounce : Nat := 0x9
def AnnounceCancel : Nat := 0xC
def SubscribeAnnounces : Nat := 0x11
def SubscribeAnnouncesOK : Nat := 0x12
def SubscribeAnnouncesError : Nat := 0x13
def UnsubscribeAnnounces : Nat := 0x14

def NextGroupStart : Nat := 0x1
def LatestObject : Nat := 0x2
def AbsoluteStart : Nat := 0x3
def AbsoluteRange : Nat := 0x4

def ObjectStatusNormal : Nat := 0x0
def ObjectStatusDoesNotExist : Nat := 0x1
def ObjectStatusEndOfGroup : Nat := 0x3
def ObjectStatusEndOfTrack : Nat := 0x4

def SubgroupHeaderBase : Nat := 0x08
def FetchHeader : Nat := 0x05

def ObjectDatagramNoExt : Nat := 0x00
def ObjectDatagramWithExt : Nat := 0x01
def ObjectStatusNoExt : Nat := 0x02
def ObjectStatusWithExt : Nat := 0x03

def SetupParamPath : Nat := 0x01
def SetupParamMaxRequestID : Nat := 0x02
def SetupParamMaxAuthTokenCacheSize : Nat := 0x04

def VersionParamAuthorizationToken : Nat := 0x01
def VersionParamDeliveryTimeout : Nat := 0x02
def VersionParamMaxCacheDuration : Nat := 0x04

def AliasTypeDelete : Nat := 0x0
def AliasTypeRegister : Nat := 0x1
def AliasTypeUseAlias : Nat := 0x2
def AliasTypeUseValue : Nat := 0x3

/-! Data model. -/

/-- Go `Location`: a (group id, object id) pair. -/
structure Location where
  GroupID : Nat
  ObjectID : Nat
  deriving DecidableEq, Repr

/-- Go `Location.Less`: lexicographic strict order on locations. -/
def Location.Less (l other : Location) : Bool :=
  if l.GroupID < other.GroupID then true
  else if l.GroupID = other.GroupID then decide (l.ObjectID < other.ObjectID)
  else false

/-- Go `TrackNamespace`: a tuple of byte fields. -/
structure TrackNamespace where
  Fields : List (List Nat)
  deriving DecidableEq, Repr

/-- Go `NewTrackNamespace`: requires 1..32 fields, else an
`ErrProtocolViolation`-wrapped error. -/
def NewTrackNamespace (fields : List (List Nat)) : Except VErr TrackNamespace :=
  if fields.length = 0 ∨ fields.length > 32 then
    .error (.protocol "track namespace must have 1-32 fields")
  else .ok ⟨fields⟩

/-- Go `FullTrackName`: namespace plus name bytes. -/
structure FullTrackName where
  Namespace : TrackNamespace
  Name : List Nat
  deriving DecidableEq, Repr

/-- Go `NewFullTrackName`: total length of all namespace fields plus the name
must not exceed 4096 bytes. -/
def NewFullTrackName (ns : TrackNamespace) (name : List Nat) : Except VErr FullTrackName :=
  if (ns.Fields.map List.length).sum + name.length > 4096 then
    .error (.protocol "full track name exceeds 4096 bytes")
  else .ok ⟨ns, name⟩

/-- The subscription record Go stores in `activeSubscriptions` (the
`map[string]interface{}` with keys track_alias / full_track_name /
filter_type). -/
structure SubscriptionInfo where
  trackAlias : Nat
  fullTrackName : FullTrackName
  filterType : Nat
  deriving DecidableEq, Repr

/-- Go `MoQTValidator`: the session state.  Go maps are modelled as
association lists with overwrite-on-insert semantics (`mapInsert` below);
`activeFetches` stores only the request-id keys, because Go stores the
decoded result record there and never reads it back. -/
structure MoQTValidator where
  currentVersion : Nat
  maxRequestIDClient : Nat
  maxRequestIDServer : Nat
  activeTracks : List (Nat × FullTrackName)
  activeSubscriptions : List (Nat × SubscriptionInfo)
  activeFetches : List Nat
  authTokens : List (Nat × List Nat)
  maxAuthTokenCacheSize : Nat
  currentAuthTokenSize : Nat
  deriving DecidableEq, Repr

/-- Go `NewMoQTValidator`: version 1, empty tables; the Go fields without an
initializer (`maxRequestIDClient`, `maxRequestIDServer`,
`maxAuthTokenCacheSize`, `currentAuthTokenSize`) get the zero value. -/
def NewMoQTValidator : MoQTValidator :=
  { currentVersion := 1
    maxRequestIDClient := 0
    maxRequestIDServer := 0
    activeTracks := []
    activeSubscriptions := []
    activeFetches := []
    authTokens := []
    maxAuthTokenCacheSize := 0
    currentAuthTokenSize := 0 }

/-- Go map assignment `m[k] = v`: overwrite any existing binding. -/
def mapInsert {β : Type} (m : List (Nat × β)) (k : Nat) (v : β) : List (Nat × β) :=
  (k, v) :: m.filter (fun p => p.1 != k)

/-- Go `delete(m, k)`. -/
def mapDelete {β : Type} (m : List (Nat × β)) (k : Nat) : List (Nat × β) :=
  m.filter (fun p => p.1 != k)

/-- Go map read `v, ok := m[k]`. -/
def mapLookup {β : Type} (m : List (Nat × β)) (k : Nat) : Option β :=
  List.lookup k m

/-- Go `uint64` addition. -/
def add64 (a b : Nat) : Nat := (a + b) % 2 ^ 64

/-- Go `uint64` subtraction (wraps on underflow). -/
def sub64 (a b : Nat) : Nat := (a + 2 ^ 64 - b % 2 ^ 64) % 2 ^ 64

/-- One decoded parameter entry (used for setup parameters, version
parameters and extension headers alike): the type code plus either a varint
value (even type) or opaque bytes (odd type). -/
structure Param where
  type : Nat
  numValue : Option Nat := none
  bytesValue : Option (List Nat) := none
  deriving DecidableEq, Repr

/-! Helper predicates from `main.go`. -/

def isValidMessageType (msgType : Nat) : Bool :=
  [ClientSetup, ServerSetup, Goaway, MaxRequestID, RequestsBlocked,
   Subscribe, SubscribeOK, SubscribeError, Unsubscribe, SubscribeUpdate, SubscribeDone,
   Fetch, FetchOK, FetchError, FetchCancel,
   TrackStatusRequest, TrackStatus,
   Announce, AnnounceOK, AnnounceError, Unannounce, AnnounceCancel,
   SubscribeAnnounces, SubscribeAnnouncesOK, SubscribeAnnouncesError,
   UnsubscribeAnnounces].contains msgType

def isValidFilterType (filterType : Nat) : Bool :=
  NextGroupStart ≤ filterType && filterType ≤ AbsoluteRange

def isValidObjectStatus (status : Nat) : Bool :=
  status == ObjectStatusNormal || status == ObjectStatusDoesNotExist ||
    status == ObjectStatusEndOfGroup || status == ObjectStatusEndOfTrack

def isValidDatagramType (datagramType : Nat) : Bool :=
  ObjectDatagramNoExt ≤ datagramType && datagramType ≤ ObjectStatusWithExt

/-! Extension headers (`validateExtensionHeaders`). -/

/-- Loop body of Go `validateExtensionHeaders`: repeat while the reader is
non-empty: varint type, then parity-dispatched value (even = varint, odd =
length-prefixed bytes). -/
def extHeadersLoop (data : List Nat) (acc : List Param) : Except VErr (List Param) :=
  if data.isEmpty then .ok acc.reverse
  else
    match hdec : VarInt.Decode data with
    | .error e => .error e
    | .ok (headerType, _, d1) =>
      if headerType % 2 = 0 then
        match hval : VarInt.Decode d1 with
        | .error e => .error e
        | .ok (value, _, d2) =>
          extHeadersLoop d2 ({ type := headerType, numValue := some value } :: acc)
      else
        match hlen : VarInt.Decode d1 with
        | .error e => .error e
        | .ok (len, _, d2) =>
          match hrf : readFull len d2 with
          | .error _ => .error (.validation "insufficient data for extension header value")
          | .ok (value, d3) =>
            extHeadersLoop d3 ({ type := headerType, bytesValue := some value } :: acc)
  termination_by data.length
  decreasing_by
  · have a1 := VarInt.Decode_rest_lt hdec
    have a2 := VarInt.Decode_rest_lt hval
    omega
  · have a1 := VarInt.Decode_rest_lt hdec
    have a2 := VarInt.Decode_rest_lt hlen
    have a3 := (readFull_ok_inv hrf).2.2.2.2
    omega

/-- Go `validateExtensionHeaders`: parses a bounded buffer of extension
headers. -/
def validateExtensionHeaders (data : List Nat) : Except VErr (List Param) :=
  extHeadersLoop data []

/-! Subgroup objects (`validateSubgroupObject`). -/

/-- One decoded object of a subgroup stream.  For a non-empty payload Go
stores status name `NORMAL`, modelled as status code `0`. -/
structure SubgroupObject where
  objectID : Nat
  extensionHeadersLength : Option Nat := none
  extensionHeaders : List Param := []
  payloadLength : Nat := 0
  status : Nat := 0
  payload : List Nat := []
  deriving DecidableEq, Repr

/-- The extension-header step of Go `validateSubgroupObject`: when
extensions are present, read the length varint and, if positive, the bytes
(validated by `validateExtensionHeaders`). -/
def subgroupObjExt (extensionsPresent : Bool) (d1 : List Nat) :
    Except VErr (Option Nat × List Param × List Nat) :=
  if extensionsPresent then
    match VarInt.Decode d1 with
    | .error e => .error e
    | .ok (extLength, _, d2) =>
      if extLength > 0 then
        match readFull extLength d2 with
        | .error _ => .error (.validation "insufficient data for extension headers")
        | .ok (extData, d3) =>
          match validateExtensionHeaders extData with
          | .error e => .error e
          | .ok headers => .ok (some extLength, headers, d3)
      else .ok (some extLength, [], d2)
  else .ok (none, [], d1)

theorem subgroupObjExt_rest_le {ext : Bool} {d1 : List Nat} {extLen headers d2}
    (h : subgroupObjExt ext d1 = .ok (extLen, headers, d2)) : d2.length ≤ d1.length := by
  cases ext with
  | false =>
    unfold subgroupObjExt at h
    simp only [Bool.false_eq_true, if_false, Except.ok.injEq, Prod.mk.injEq] at h
    obtain ⟨-, -, rfl⟩ := h
    exact Nat.le_refl _
  | true =>
    unfold subgroupObjExt at h
    simp only [if_true] at h
    cases hdec : VarInt.Decode d1 with
    | error e =>
      simp only [hdec] at h
      exact Except.noConfusion h
    | ok trip =>
      obtain ⟨extLength, n2, d2x⟩ := trip
      simp only [hdec] at h
      have hd2x := VarInt.Decode_rest_lt hdec
      by_cases hpos : extLength > 0
      · rw [if_pos hpos] at h
        cases hrf : readFull extLength d2x with
        | error e =>
          simp only [hrf] at h
          exact Except.noConfusion h
        | ok pr =>
          obtain ⟨extData, d3⟩ := pr
          simp only [hrf] at h
          have hd3 := (readFull_ok_inv hrf).2.2.2.2
          cases hvh : validateExtensionHeaders extData with
          | error e =>
            simp only [hvh] at h
            exact Except.noConfusion h
          | ok headers2 =>
            simp only [hvh, Except.ok.injEq, Prod.mk.injEq] at h
            obtain ⟨-, -, rfl⟩ := h
            omega
      · rw [if_neg hpos] at h
        simp only [Except.ok.injEq, Prod.mk.injEq] at h
        obtain ⟨-, -, rfl⟩ := h
        omega

/-- Go `validateSubgroupObject`: object id, optional extension headers,
payload length, then status (zero-length payload) or payload bytes. -/
def validateSubgroupObject (extensionsPresent : Bool) (data : List Nat) :
    Except VErr (SubgroupObject × List Nat) :=
  match VarInt.Decode data with
  | .error e => .error e
  | .ok (objectID, _, d1) =>
    match subgroupObjExt extensionsPresent d1 with
    | .error e => .error e
    | .ok (extLen, headers, d2) =>
      match VarInt.Decode d2 with
      | .error e => .error e
      | .ok (payloadLength, _, d3) =>
        if payloadLength = 0 then
          match VarInt.Decode d3 with
          | .error e => .error e
          | .ok (status, _, d4) =>
            if isValidObjectStatus status then
              .ok ({ objectID := objectID, extensionHeadersLength := extLen,
                     extensionHeaders := headers, payloadLength := 0,
                     status := status }, d4)
            else .error (.protocol "invalid object status")
        else
          match readFull payloadLength d3 with
          | .error _ => .error (.validation "insufficient data for object payload")
          | .ok (payload, d4) =>
            .ok ({ objectID := objectID, extensionHeadersLength := extLen,
                   extensionHeaders := headers, payloadLength := payloadLength,
                   status := ObjectStatusNormal, payload := payload }, d4)

theorem validateSubgroupObject_rest_lt {ext : Bool} {data : List Nat} {obj rest}
    (h : validateSubgroupObject ext data = .ok (obj, rest)) : rest.length < data.length := by
  unfold validateSubgroupObject at h
  cases hdec : VarInt.Decode data with
  | error e =>
    simp only [hdec] at h
    exact Except.noConfusion h
  | ok trip =>
    obtain ⟨objectID, n1, d1⟩ := trip
    simp only [hdec] at h
    have hd1 := VarInt.Decode_rest_lt hdec
    cases hext : subgroupObjExt ext d1 with
    | error e =>
      simp only [hext] at h
      exact Except.noConfusion h
    | ok trip2 =>
      obtain ⟨extLen, headers, d2⟩ := trip2
      simp only [hext] at h
      have hd2 := subgroupObjExt_rest_le hext
      cases hpl : VarInt.Decode d2 with
      | error e =>
        simp only [hpl] at h
        exact Except.noConfusion h
      | ok trip3 =>
        obtain ⟨payloadLength, n3, d3⟩ := trip3
        simp only [hpl] at h
        have hd3 := VarInt.Decode_rest_lt hpl
        by_cases hz : payloadLength = 0
        · rw [if_pos hz] at h
          cases hst : VarInt.Decode d3 with
          | error e =>
            simp only [hst] at h
            exact Except.noConfusion h
          | ok trip4 =>
            obtain ⟨status, n4, d4⟩ := trip4
            simp only [hst] at h
            have hd4 := VarInt.Decode_rest_lt hst
            by_cases hv : isValidObjectStatus status
            · rw [if_pos hv] at h
              simp only [Except.ok.injEq, Prod.mk.injEq] at h
              obtain ⟨-, rfl⟩ := h
              omega
            · rw [if_neg hv] at h
              exact Except.noConfusion h
        · rw [if_neg hz] at h
          cases hrf : readFull payloadLength d3 with
          | error e =>
            simp only [hrf] at h
            exact Except.noConfusion h
          | ok pr =>
            obtain ⟨payload, d4⟩ := pr
            simp only [hrf] at h
            have hd4 := (readFull_ok_inv hrf).2.2.2.2
            simp only [Except.ok.injEq, Prod.mk.injEq] at h
            obtain ⟨-, rfl⟩ := h
            omega

/-! Subgroup header streams (`validateSubgroupHeader`). -/

/-- Object loop of Go `validateSubgroupHeader`: parse objects until the
reader ends.  `io.EOF` is a clean terminator; any other parse error also
terminates cleanly once at least one object was decoded; object ids must be
strictly ascending. -/
def subgroupLoop (ext : Bool) (data : List Nat) (objectCount : Nat)
    (firstObjectID : Option Nat) (lastObjectID : Nat) (acc : List SubgroupObject) :
    Except VErr (List SubgroupObject × Nat × Option Nat) :=
  match hobj : validateSubgroupObject ext data with
  | .error e =>
    if e = .eof then .ok (acc.reverse, objectCount, firstObjectID)
    else if objectCount > 0 then .ok (acc.reverse, objectCount, firstObjectID)
    else .error e
  | .ok (obj, rest) =>
    let fid := match firstObjectID with
      | none => some obj.objectID
      | some x => some x
    if objectCount > 0 ∧ obj.objectID ≤ lastObjectID then
      .error (.protocol "object IDs must be ascending")
    else
      subgroupLoop ext rest (objectCount + 1) fid obj.objectID (obj :: acc)
  termination_by data.length
  decreasing_by exact validateSubgroupObject_rest_lt hobj

/-- The decoded record of a subgroup-header stream. -/
structure SubgroupHeaderResult where
  headerType : Nat
  subgroupIDPresent : Bool
  extensionsPresent : Bool
  trackAlias : Nat
  groupID : Nat
  subgroupID : Option Nat
  publisherPriority : Nat
  objects : List SubgroupObject
  objectCount : Nat
  deriving DecidableEq, Repr

/-- The `typeInfo` table of Go `validateSubgroupHeader`: for each header type
0x08..0x0D whether a subgroup-id field is present and whether per-object
extension headers are present (the display-only `subgroupIDValue` string is
not modelled). -/
def subgroupTypeInfo (t : Nat) : Option (Bool × Bool) :=
  match t with
  | 0x08 => some (false, false)
  | 0x09 => some (false, true)
  | 0x0A => some (false, false)
  | 0x0B => some (false, true)
  | 0x0C => some (true, false)
  | 0x0D => some (true, true)
  | _ => none

/-- Optional subgroup-id field read of Go `validateSubgroupHeader`. -/
def subgroupHeaderSgid (present : Bool) (d2 : List Nat) :
    Except VErr (Option Nat × List Nat) :=
  if present then
    match VarInt.Decode d2 with
    | .error e => .error e
    | .ok (sgid, _, d3) => .ok (some sgid, d3)
  else .ok (none, d2)

/-- Go `validateSubgroupHeader`: header fields then the object loop; for
types 0x0A/0x0B the record's subgroup id becomes the first object's id. -/
def validateSubgroupHeader (headerType : Nat) (data : List Nat) :
    Except VErr SubgroupHeaderResult :=
  match subgroupTypeInfo headerType with
  | none => .error (.protocol "invalid subgroup header type")
  | some (subgroupIDPresent, extensionsPresent) =>
    match VarInt.Decode data with
    | .error e => .error e
    | .ok (trackAlias, _, d1) =>
      match VarInt.Decode d1 with
      | .error e => .error e
      | .ok (groupID, _, d2) =>
        match subgroupHeaderSgid subgroupIDPresent d2 with
        | .error e => .error e
        | .ok (subgroupID0, d3) =>
          match readFull 1 d3 with
          | .error _ => .error (.validation "missing publisher priority")
          | .ok (pb, d4) =>
            match subgroupLoop extensionsPresent d4 0 none 0 [] with
            | .error e => .error e
            | .ok (objects, objectCount, firstObjectID) =>
              let subgroupID :=
                if headerType = 0x0A ∨ headerType = 0x0B then
                  match firstObjectID with
                  | some fid => some fid
                  | none => subgroupID0
                else subgroupID0
              .ok { headerType := headerType
                    subgroupIDPresent := subgroupIDPresent
                    extensionsPresent := extensionsPresent
                    trackAlias := trackAlias
                    groupID := groupID
                    subgroupID := subgroupID
                    publisherPriority := pb.headI
                    objects := objects
                    objectCount := objectCount }

/-! Fetch-header streams (`validateFetchHeader`). -/

/-- One decoded object of a fetch-header stream. -/
structure FetchObject where
  groupID : Nat
  subgroupID : Nat
  objectID : Nat
  publisherPriority : Nat := 0
  extensionHeadersLength : Nat := 0
  extensionHeaders : List Param := []
  payloadLength : Nat := 0
  status : Nat := 0
  payload : List Nat := []
  deriving DecidableEq, Repr

/-- Go `validateFetchObject`. -/
def validateFetchObject (data : List Nat) : Except VErr (FetchObject × List Nat) :=
  match VarInt.Decode data with
  | .error e => .error e
  | .ok (groupID, _, d1) =>
    match VarInt.Decode d1 with
    | .error e => .error e
    | .ok (subgroupID, _, d2) =>
      match VarInt.Decode d2 with
      | .error e => .error e
      | .ok (objectID, _, d3) =>
        match readFull 1 d3 with
        | .error _ => .error (.validation "missing publisher priority")
        | .ok (pb, d4) =>
          match VarInt.Decode d4 with
          | .error e => .error e
          | .ok (extLength, _, d5) =>
            match (if extLength > 0 then
                     match readFull extLength d5 with
                     | .error _ =>
                       .error (.validation "insufficient data for extension headers")
                     | .ok (extData, d6) =>
                       match validateExtensionHeaders extData with
                       | .error e => .error e
                       | .ok headers => .ok (headers, d6)
                   else .ok ([], d5) :
                    Except VErr (List Param × List Nat)) with
            | .error e => .error e
            | .ok (headers, d6) =>
              match VarInt.Decode d6 with
              | .error e => .error e
              | .ok (payloadLength, _, d7) =>
                if payloadLength = 0 then
                  match VarInt.Decode d7 with
                  | .error e => .error e
                  | .ok (status, _, d8) =>
                    if isValidObjectStatus status then
                      .ok ({ groupID := groupID, subgroupID := subgroupID,
                             objectID := objectID, publisherPriority := pb.headI,
                             extensionHeadersLength := extLength,
                             extensionHeaders := headers, payloadLength := 0,
                             status := status }, d8)
                    else .error (.protocol "invalid object status")
                else
                  match readFull payloadLength d7 with
                  | .error _ => .error (.validation "insufficient data for object payload")
                  | .ok (payload, d8) =>
                    .ok ({ groupID := groupID, subgroupID := subgroupID,
                           objectID := objectID, publisherPriority := pb.headI,
                           extensionHeadersLength := extLength,
                           extensionHeaders := headers, payloadLength := payloadLength,
                           status := ObjectStatusNormal, payload := payload }, d8)

theorem validateFetchObject_rest_lt {data : List Nat} {obj rest}
    (h : validateFetchObject data = .ok (obj, rest)) : rest.length < data.length := by
  unfold validateFetchObject at h
  cases h1 : VarInt.Decode data with
  | error e => simp only [h1] at h; exact Except.noConfusion h
  | ok t1 =>
    obtain ⟨groupID, n1, d1⟩ := t1
    simp only [h1] at h
    have ha := VarInt.Decode_rest_lt h1
    cases h2 : VarInt.Decode d1 with
    | error e => simp only [h2] at h; exact Except.noConfusion h
    | ok t2 =>
      obtain ⟨subgroupID, n2, d2⟩ := t2
      simp only [h2] at h
      have hb := VarInt.Decode_rest_lt h2
      cases h3 : VarInt.Decode d2 with
      | error e => simp only [h3] at h; exact Except.noConfusion h
      | ok t3 =>
        obtain ⟨objectID, n3, d3⟩ := t3
        simp only [h3] at h
        have hc := VarInt.Decode_rest_lt h3
        cases h4 : readFull 1 d3 with
        | error e => simp only [h4] at h; exact Except.noConfusion h
        | ok t4 =>
          obtain ⟨pb, d4⟩ := t4
          simp only [h4] at h
          have hd := (readFull_ok_inv h4).2.2.2.2
          cases h5 : VarInt.Decode d4 with
          | error e => simp only [h5] at h; exact Except.noConfusion h
          | ok t5 =>
            obtain ⟨extLength, n5, d5⟩ := t5
            simp only [h5] at h
            have he := VarInt.Decode_rest_lt h5
            have hstep : ∀ {headers : List Param} {d6 : List Nat},
                (if extLength > 0 then
                   match readFull extLength d5 with
                   | .error _ =>
                     Except.error (VErr.validation "insufficient data for extension headers")
                   | .ok (extData, d6) =>
                     match validateExtensionHeaders extData with
                     | .error e => .error e
                     | .ok headers => .ok (headers, d6)
                 else .ok ([], d5) : Except VErr (List Param × List Nat)) =
                  .ok (headers, d6) → d6.length ≤ d5.length := by
              intro headers d6 hif
              by_cases hpos : extLength > 0
              · rw [if_pos hpos] at hif
                cases h6 : readFull extLength d5 with
                | error e => simp only [h6] at hif; exact Except.noConfusion hif
                | ok t6 =>
                  obtain ⟨extData, d6x⟩ := t6
                  simp only [h6] at hif
                  have hf := (readFull_ok_inv h6).2.2.2.2
                  cases h7 : validateExtensionHeaders extData with
                  | error e => simp only [h7] at hif; exact Except.noConfusion hif
                  | ok headers2 =>
                    simp only [h7, Except.ok.injEq, Prod.mk.injEq] at hif
                    obtain ⟨-, rfl⟩ := hif
                    omega
              · rw [if_neg hpos] at hif
                simp only [Except.ok.injEq, Prod.mk.injEq] at hif
                obtain ⟨-, rfl⟩ := hif
                exact Nat.le_refl _
            cases h6 : (if extLength > 0 then
                 match readFull extLength d5 with
                 | .error _ =>
                   Except.error (VErr.validation "insufficient data for extension headers")
                 | .ok (extData, d6) =>
                   match validateExtensionHeaders extData with
                   | .error e => .error e
                   | .ok headers => .ok (headers, d6)
               else .ok ([], d5) : Except VErr (List Param × List Nat)) with
            | error e => simp only [h6] at h; exact Except.noConfusion h
            | ok t6 =>
              obtain ⟨headers, d6⟩ := t6
              simp only [h6] at h
              have hg := hstep h6
              cases h7 : VarInt.Decode d6 with
              | error e => simp only [h7] at h; exact Except.noConfusion h
              | ok t7 =>
                obtain ⟨payloadLength, n7, d7⟩ := t7
                simp only [h7] at h
                have hh := VarInt.Decode_rest_lt h7
                by_cases hz : payloadLength = 0
                · rw [if_pos hz] at h
                  cases h8 : VarInt.Decode d7 with
                  | error e => simp only [h8] at h; exact Except.noConfusion h
                  | ok t8 =>
                    obtain ⟨status, n8, d8⟩ := t8
                    simp only [h8] at h
                    have hi := VarInt.Decode_rest_lt h8
                    by_cases hv : isValidObjectStatus status
                    · rw [if_pos hv] at h
                      simp only [Except.ok.injEq, Prod.mk.injEq] at h
                      obtain ⟨-, rfl⟩ := h
                      omega
                    · rw [if_neg hv] at h
                      exact Except.noConfusion h
                · rw [if_neg hz] at h
                  cases h8 : readFull payloadLength d7 with
                  | error e => simp only [h8] at h; exact Except.noConfusion h
                  | ok t8 =>
                    obtain ⟨payload, d8⟩ := t8
                    simp only [h8] at h
                    have hi := (readFull_ok_inv h8).2.2.2.2
                    simp only [Except.ok.injEq, Prod.mk.injEq] at h
                    obtain ⟨-, rfl⟩ := h
                    omega

/-- Object loop of Go `validateFetchHeader`: same clean-termination rules as
the subgroup loop, without the ordering check. -/
def fetchLoop (data : List Nat) (acc : List FetchObject) : Except VErr (List FetchObject) :=
  match hobj : validateFetchObject data with
  | .error e =>
    if e = .eof then .ok acc.reverse
    else if acc.length > 0 then .ok acc.reverse
    else .error e
  | .ok (obj, rest) => fetchLoop rest (obj :: acc)
  termination_by data.length
  decreasing_by exact validateFetchObject_rest_lt hobj

/-- Go `validateFetchHeader`: request id then the object loop. -/
def validateFetchHeader (data : List Nat) : Except VErr (Nat × List FetchObject) :=
  match VarInt.Decode data with
  | .error e => .error e
  | .ok (requestID, _, d1) =>
    match fetchLoop d1 [] with
    | .error e => .error e
    | .ok objects => .ok (requestID, objects)

/-- Result of `validateDataStream`. -/
inductive StreamResult where
  | subgroup (r : SubgroupHeaderResult)
  | fetchHeader (requestID : Nat) (objects : List FetchObject) (objectCount : Nat)
  deriving DecidableEq, Repr

/-- Go `validateDataStream` (behind `ValidateMessage(_, false)`): dispatch on
the stream type.  The method never reads or writes the validator state. -/
def validateDataStream (data : List Nat) : Except VErr StreamResult :=
  if data.length = 0 then .error (.validation "empty data stream")
  else
    match VarInt.Decode data with
    | .error e => .error e
    | .ok (streamType, _, d1) =>
      if 0x08 ≤ streamType ∧ streamType ≤ 0x0D then
        match validateSubgroupHeader streamType d1 with
        | .error e => .error e
        | .ok r => .ok (.subgroup r)
      else if streamType = 0x05 then
        match validateFetchHeader d1 with
        | .error e => .error e
        | .ok (requestID, objects) => .ok (.fetchHeader requestID objects objects.length)
      else .error (.protocol "unknown stream type")

/-! Datagrams (`ValidateDatagram`). -/

/-- The decoded record of a datagram. -/
structure DatagramResult where
  typeValue : Nat
  trackAlias : Nat
  groupID : Nat
  objectID : Nat
  publisherPriority : Nat
  extensionHeadersLength : Option Nat := none
  extensionHeaders : List Param := []
  payload : Option (List Nat) := none
  status : Option Nat := none
  deriving DecidableEq, Repr

/-- Extension-header step of Go `ValidateDatagram`: only for the WithExt
types; a zero extension length is a protocol violation there. -/
def datagramExt (datagramType : Nat) (d5 : List Nat) :
    Except VErr (Option Nat × List Param × List Nat) :=
  if datagramType = ObjectDatagramWithExt ∨ datagramType = ObjectStatusWithExt then
    match VarInt.Decode d5 with
    | .error e => .error e
    | .ok (extLength, _, d6) =>
      if extLength > 0 then
        match readFull extLength d6 with
        | .error _ => .error (.validation "insufficient data for extension headers")
        | .ok (extData, d7) =>
          match validateExtensionHeaders extData with
          | .error e => .error e
          | .ok headers => .ok (some extLength, headers, d7)
      else .error (.protocol "extension header length is 0 for type with extensions")
  else .ok (none, [], d5)

/-- Go `ValidateDatagram`: type, track alias, group id, object id, priority,
optional extension headers, then payload (Object types, remaining bytes) or
status varint (ObjectStatus types).  The method never reads or writes the
validator state. -/
def ValidateDatagram (data : List Nat) : Except VErr DatagramResult :=
  if data.length = 0 then .error (.validation "empty datagram")
  else
    match VarInt.Decode data with
    | .error e => .error e
    | .ok (datagramType, _, d1) =>
      if ¬ isValidDatagramType datagramType then .error (.protocol "unknown datagram type")
      else
        match VarInt.Decode d1 with
        | .error e => .error e
        | .ok (trackAlias, _, d2) =>
          match VarInt.Decode d2 with
          | .error e => .error e
          | .ok (groupID, _, d3) =>
            match VarInt.Decode d3 with
            | .error e => .error e
            | .ok (objectID, _, d4) =>
              match readFull 1 d4 with
              | .error _ => .error (.validation "missing publisher priority")
              | .ok (pb, d5) =>
                match datagramExt datagramType d5 with
                | .error e => .error e
                | .ok (extLen, headers, d6) =>
                  if datagramType = ObjectDatagramNoExt ∨
                      datagramType = ObjectDatagramWithExt then
                    .ok { typeValue := datagramType, trackAlias := trackAlias,
                          groupID := groupID, objectID := objectID,
                          publisherPriority := pb.headI,
                          extensionHeadersLength := extLen,
                          extensionHeaders := headers, payload := some d6 }
                  else
                    match VarInt.Decode d6 with
                    | .error e => .error e
                    | .ok (status, _, _) =>
                      if ¬ isValidObjectStatus status then
                        .error (.protocol "invalid object status")
                      else
                        .ok { typeValue := datagramType, trackAlias := trackAlias,
                              groupID := groupID, objectID := objectID,
                              publisherPriority := pb.headI,
                              extensionHeadersLength := extLen,
                              extensionHeaders := headers, status := some status }

/-! Tuple reader (`readTuple`) and setup parameters. -/

/-- Field loop of Go `readTuple`. -/
def readTupleFields : Nat → List Nat → Except VErr (List (List Nat) × List Nat)
  | 0, data => .ok ([], data)
  | n + 1, data =>
    match VarInt.Decode data with
    | .error e => .error e
    | .ok (fieldLength, _, d1) =>
      match readFull fieldLength d1 with
      | .error _ => .error (.validation "insufficient data for tuple field")
      | .ok (fieldData, d2) =>
        match readTupleFields n d2 with
        | .error e => .error e
        | .ok (fields, rest) => .ok (fieldData :: fields, rest)

/-- Go `readTuple`: a varint field count then that many length-prefixed
fields.  The method never touches the validator state. -/
def readTuple (data : List Nat) : Except VErr (List (List Nat) × List Nat) :=
  match VarInt.Decode data with
  | .error e => .error e
  | .ok (numFields, _, d1) => readTupleFields numFields d1

/-- Parameter loop of Go `validateSetupParameters`: parity-dispatched
entries; odd-type values are capped at 65535 bytes.  The method never
touches the validator state (in particular it does not store
`MAX_REQUEST_ID` or `MAX_AUTH_TOKEN_CACHE_SIZE` anywhere). -/
def validateSetupParameters : Nat → List Nat → Except VErr (List Param × List Nat)
  | 0, data => .ok ([], data)
  | n + 1, data =>
    match VarInt.Decode data with
    | .error e => .error e
    | .ok (paramType, _, d1) =>
      if paramType % 2 = 0 then
        match VarInt.Decode d1 with
        | .error e => .error e
        | .ok (value, _, d2) =>
          match validateSetupParameters n d2 with
          | .error e => .error e
          | .ok (ps, rest) => .ok ({ type := paramType, numValue := some value } :: ps, rest)
      else
        match VarInt.Decode d1 with
        | .error e => .error e
        | .ok (len, _, d2) =>
          if len > 65535 then .error (.protocol "parameter length too large")
          else
            match readFull len d2 with
            | .error _ => .error (.validation "insufficient data for parameter value")
            | .ok (value, d3) =>
              match validateSetupParameters n d3 with
              | .error e => .error e
              | .ok (ps, rest) =>
                .ok ({ type := paramType, bytesValue := some value } :: ps, rest)

/-! Authorization tokens (`validateAuthToken`). -/

/-- The decoded fields of one authorization-token parameter value. -/
structure AuthTokenInfo where
  aliasType : Nat
  tokenAlias : Option Nat := none
  tokenType : Option Nat := none
  tokenValue : Option (List Nat) := none
  deriving DecidableEq, Repr

/-- Go `validateAuthToken`: alias type, then (by alias type) token alias,
token type and value; REGISTER checks the cache budget before the duplicate
check and then inserts; DELETE removes silently; USE_ALIAS requires the
alias to exist.  Go's single sequential function is split here into one
branch per alias type (0 DELETE, 1 REGISTER, 2 USE_ALIAS, 3 USE_VALUE); the
reads and checks in each branch are in Go's order.  `uint64` counter updates
use the wrap-around helpers `add64`/`sub64`. -/
def validateAuthToken (v : MoQTValidator) (tokenData : List Nat) :
    Except VErr AuthTokenInfo × MoQTValidator :=
  match VarInt.Decode tokenData with
  | .error e => (.error e, v)
  | .ok (aliasType, _, d1) =>
    if aliasType > 3 then (.error (.protocol "invalid alias type"), v)
    else if aliasType ≤ 2 then
      match VarInt.Decode d1 with
      | .error e => (.error e, v)
      | .ok (tokenAlias, _, d2) =>
        if aliasType = AliasTypeRegister then
          match VarInt.Decode d2 with
          | .error e => (.error e, v)
          | .ok (tokenType, _, d3) =>
            let tokenValue := d3
            let tokenSize := add64 8 tokenValue.length
            if add64 v.currentAuthTokenSize tokenSize > v.maxAuthTokenCacheSize then
              (.error (.protocol "auth token cache overflow"), v)
            else if (mapLookup v.authTokens tokenAlias).isSome then
              (.error (.protocol "duplicate auth token alias"), v)
            else
              (.ok { aliasType := aliasType, tokenAlias := some tokenAlias,
                     tokenType := some tokenType, tokenValue := some tokenValue },
               { v with authTokens := mapInsert v.authTokens tokenAlias tokenValue,
                        currentAuthTokenSize := add64 v.currentAuthTokenSize tokenSize })
        else if aliasType = AliasTypeDelete then
          match mapLookup v.authTokens tokenAlias with
          | some token =>
            (.ok { aliasType := aliasType, tokenAlias := some tokenAlias },
             { v with authTokens := mapDelete v.authTokens tokenAlias,
                      currentAuthTokenSize :=
                        sub64 v.currentAuthTokenSize (add64 8 token.length) })
          | none => (.ok { aliasType := aliasType, tokenAlias := some tokenAlias }, v)
        else
          if (mapLookup v.authTokens tokenAlias).isSome then
            (.ok { aliasType := aliasType, tokenAlias := some tokenAlias }, v)
          else (.error (.protocol "unknown auth token alias"), v)
    else
      match VarInt.Decode d1 with
      | .error e => (.error e, v)
      | .ok (tokenType, _, d2) =>
        (.ok { aliasType := aliasType, tokenType := some tokenType,
               tokenValue := some d2 }, v)

/-! Version parameters (`validateVersionParameters`). -/

/-- Go `validateVersionParameters`: like the setup-parameter loop, but an
odd parameter of type AUTHORIZATION_TOKEN (0x01) with a non-empty value is
routed through `validateAuthToken`, which can mutate the token cache; a
failure aborts the loop with the state mutated so far. -/
def validateVersionParameters (v : MoQTValidator) :
    Nat → List Nat → Except VErr (List Param × List Nat) × MoQTValidator
  | 0, data => (.ok ([], data), v)
  | n + 1, data =>
    match VarInt.Decode data with
    | .error e => (.error e, v)
    | .ok (paramType, _, d1) =>
      if paramType % 2 = 0 then
        match VarInt.Decode d1 with
        | .error e => (.error e, v)
        | .ok (value, _, d2) =>
          match validateVersionParameters v n d2 with
          | (.error e, v2) => (.error e, v2)
          | (.ok (ps, rest), v2) =>
            (.ok ({ type := paramType, numValue := some value } :: ps, rest), v2)
      else
        match VarInt.Decode d1 with
        | .error e => (.error e, v)
        | .ok (len, _, d2) =>
          if len > 65535 then (.error (.protocol "parameter length too large"), v)
          else
            match readFull len d2 with
            | .error _ => (.error (.validation "insufficient data for parameter value"), v)
            | .ok (value, d3) =>
              if paramType = VersionParamAuthorizationToken ∧ value.length > 0 then
                match validateAuthToken v value with
                | (.error e, v2) => (.error e, v2)
                | (.ok _, v2) =>
                  match validateVersionParameters v2 n d3 with
                  | (.error e, v3) => (.error e, v3)
                  | (.ok (ps, rest), v3) =>
                    (.ok ({ type := paramType, bytesValue := some value } :: ps, rest), v3)
              else
                match validateVersionParameters v n d3 with
                | (.error e, v2) => (.error e, v2)
                | (.ok (ps, rest), v2) =>
                  (.ok ({ type := paramType, bytesValue := some value } :: ps, rest), v2)

/-! Control messages. -/

/-- Go `validateRequestID`: client ids are even, server ids odd, and must
not exceed the per-direction maximum held in the state. -/
def validateRequestID (v : MoQTValidator) (requestID : Nat) (isClient : Bool) :
    Except VErr Unit :=
  if isClient then
    if requestID % 2 ≠ 0 then .error (.protocol "client request ID must be even")
    else if requestID > v.maxRequestIDClient then
      .error (.protocol "request ID exceeds maximum")
    else .ok ()
  else
    if requestID % 2 ≠ 1 then .error (.protocol "server request ID must be odd")
    else if requestID > v.maxRequestIDServer then
      .error (.protocol "request ID exceeds maximum")
    else .ok ()

/-- Version loop of Go `validateClientSetup`. -/
def readVersions : Nat → List Nat → Except VErr (List Nat × List Nat)
  | 0, data => .ok ([], data)
  | n + 1, data =>
    match VarInt.Decode data with
    | .error e => .error e
    | .ok (version, _, d1) =>
      match readVersions n d1 with
      | .error e => .error e
      | .ok (vs, rest) => .ok (version :: vs, rest)

structure ClientSetupResult where
  numVersions : Nat
  supportedVersions : List Nat
  numParameters : Nat
  parameters : List Param
  deriving DecidableEq, Repr

/-- Go `validateClientSetup`: version count, versions, then setup
parameters.  Never reads or writes the validator state. -/
def validateClientSetup (data : List Nat) : Except VErr (ClientSetupResult × List Nat) :=
  match VarInt.Decode data with
  | .error e => .error e
  | .ok (numVersions, _, d1) =>
    match readVersions numVersions d1 with
    | .error e => .error e
    | .ok (versions, d2) =>
      match VarInt.Decode d2 with
      | .error e => .error e
      | .ok (numParams, _, d3) =>
        match validateSetupParameters numParams d3 with
        | .error e => .error e
        | .ok (params, rest) =>
          .ok ({ numVersions := numVersions, supportedVersions := versions,
                 numParameters := numParams, parameters := params }, rest)

structure ServerSetupResult where
  selectedVersion : Nat
  numParameters : Nat
  parameters : List Param
  deriving DecidableEq, Repr

/-- Go `validateServerSetup`: selected version then setup parameters.
Never reads or writes the validator state. -/
def validateServerSetup (data : List Nat) : Except VErr (ServerSetupResult × List Nat) :=
  match VarInt.Decode data with
  | .error e => .error e
  | .ok (version, _, d1) =>
    match VarInt.Decode d1 with
    | .error e => .error e
    | .ok (numParams, _, d2) =>
      match validateSetupParameters numParams d2 with
      | .error e => .error e
      | .ok (params, rest) =>
        .ok ({ selectedVersion := version, numParameters := numParams,
               parameters := params }, rest)

structure SubscribeResult where
  requestID : Nat
  trackAlias : Nat
  trackNamespace : List (List Nat)
  trackName : List Nat
  subscriberPriority : Nat
  groupOrder : Nat
  forward : Bool
  filterType : Nat
  startLocation : Option (Nat × Nat) := none
  endGroup : Option Nat := none
  numParameters : Nat := 0
  parameters : List Param := []
  deriving DecidableEq, Repr

/-- Start/end-location step of Go `validateSubscribe`: the two start varints
for filter types 3/4, the end group (checked against the start group) for
filter type 4.  Go writes this as two sequential `if`s; since `filter = 4`
implies `filter ∈ {3,4}`, the nesting here is equivalent. -/
def subscribeLocations (filterType : Nat) (data : List Nat) :
    Except VErr (Option (Nat × Nat) × Option Nat × List Nat) :=
  if filterType = AbsoluteStart ∨ filterType = AbsoluteRange then
    match VarInt.Decode data with
    | .error e => .error e
    | .ok (startGroup, _, d1) =>
      match VarInt.Decode d1 with
      | .error e => .error e
      | .ok (startObject, _, d2) =>
        if filterType = AbsoluteRange then
          match VarInt.Decode d2 with
          | .error e => .error e
          | .ok (endGroup, _, d3) =>
            if endGroup < startGroup then
              .error (.validation "end group must be >= start group")
            else .ok (some (startGroup, startObject), some endGroup, d3)
        else .ok (some (startGroup, startObject), none, d2)
  else .ok (none, none, data)

/-- Go map assignment on a plain key set (used for `activeFetches`, whose
stored record is never read back). -/
def keyInsert (l : List Nat) (k : Nat) : List Nat :=
  k :: l.filter (fun x => x != k)

/-- Go `validateSubscribe`: the full SUBSCRIBE grammar; on success the
subscription is stored under its request id.  The only uniqueness the code
applies to the request id is `validateRequestID`; the track alias is decoded
and stored but never checked against live subscriptions. -/
def validateSubscribe (v : MoQTValidator) (data : List Nat) :
    Except VErr (SubscribeResult × List Nat) × MoQTValidator :=
  match VarInt.Decode data with
  | .error e => (.error e, v)
  | .ok (requestID, _, d1) =>
    match validateRequestID v requestID true with
    | .error e => (.error e, v)
    | .ok _ =>
      match VarInt.Decode d1 with
      | .error e => (.error e, v)
      | .ok (trackAlias, _, d2) =>
        match readTuple d2 with
        | .error e => (.error e, v)
        | .ok (nsFields, d3) =>
          match VarInt.Decode d3 with
          | .error e => (.error e, v)
          | .ok (nameLength, _, d4) =>
            match readFull nameLength d4 with
            | .error _ => (.error (.validation "insufficient data for track name"), v)
            | .ok (trackName, d5) =>
              match NewTrackNamespace nsFields with
              | .error _ => (.error (.validation "invalid track namespace"), v)
              | .ok ns =>
                match NewFullTrackName ns trackName with
                | .error _ => (.error (.validation "invalid track name"), v)
                | .ok fullTrackName =>
                  match readFull 1 d5 with
                  | .error _ => (.error (.validation "missing subscriber priority"), v)
                  | .ok (pb, d6) =>
                    match readFull 1 d6 with
                    | .error _ => (.error (.validation "missing group order"), v)
                    | .ok (ob, d7) =>
                      if ob.headI > 2 then (.error (.protocol "invalid group order"), v)
                      else
                        match readFull 1 d7 with
                        | .error _ => (.error (.validation "missing forward flag"), v)
                        | .ok (fb, d8) =>
                          if fb.headI > 1 then
                            (.error (.protocol "invalid forward value"), v)
                          else
                            match VarInt.Decode d8 with
                            | .error e => (.error e, v)
                            | .ok (filterType, _, d9) =>
                              if ¬ isValidFilterType filterType then
                                (.error (.protocol "invalid filter type"), v)
                              else
                                match subscribeLocations filterType d9 with
                                | .error e => (.error e, v)
                                | .ok (startLocation, endGroup, d10) =>
                                  match VarInt.Decode d10 with
                                  | .error e => (.error e, v)
                                  | .ok (numParams, _, d11) =>
                                    match (if numParams > 0 then
                                             validateVersionParameters v numParams d11
                                           else (.ok ([], d11), v)) with
                                    | (.error e, v2) => (.error e, v2)
                                    | (.ok (params, d12), v2) =>
                                      let subInfo : SubscriptionInfo :=
                                        { trackAlias := trackAlias,
                                          fullTrackName := fullTrackName,
                                          filterType := filterType }
                                      let v3 : MoQTValidator :=
                                        { v2 with activeSubscriptions :=
                                            mapInsert v2.activeSubscriptions requestID subInfo }
                                      (.ok ({ requestID := requestID,
                                              trackAlias := trackAlias,
                                              trackNamespace := nsFields,
                                              trackName := trackName,
                                              subscriberPriority := pb.headI,
                                              groupOrder := ob.headI,
                                              forward := fb.headI = 1,
                                              filterType := filterType,
                                              startLocation := startLocation,
                                              endGroup := endGroup,
                                              numParameters := numParams,
                                              parameters := params }, d12), v3)

structure SubscribeOKResult where
  requestID : Nat
  expiresMs : Nat
  groupOrder : Nat
  contentExists : Bool
  largestLocation : Option (Nat × Nat) := none
  numParameters : Nat := 0
  parameters : List Param := []
  deriving DecidableEq, Repr

/-- Go `validateSubscribeOK`: request id, expires, group order (1 or 2 only;
0 rejected here), content-exists flag, optional largest location, version
parameters. -/
def validateSubscribeOK (v : MoQTValidator) (data : List Nat) :
    Except VErr (SubscribeOKResult × List Nat) × MoQTValidator :=
  match VarInt.Decode data with
  | .error e => (.error e, v)
  | .ok (requestID, _, d1) =>
    match VarInt.Decode d1 with
    | .error e => (.error e, v)
    | .ok (expires, _, d2) =>
      match readFull 1 d2 with
      | .error _ => (.error (.validation "missing group order"), v)
      | .ok (ob, d3) =>
        if ob.headI = 0 ∨ ob.headI > 2 then
          (.error (.protocol "invalid group order in SUBSCRIBE_OK"), v)
        else
          match readFull 1 d3 with
          | .error _ => (.error (.validation "missing content exists flag"), v)
          | .ok (eb, d4) =>
            if eb.headI > 1 then (.error (.protocol "invalid content exists value"), v)
            else
              match (if eb.headI = 1 then
                       match VarInt.Decode d4 with
                       | .error e => .error e
                       | .ok (largestGroup, _, d5) =>
                         match VarInt.Decode d5 with
                         | .error e => .error e
                         | .ok (largestObject, _, d6) =>
                           .ok (some (largestGroup, largestObject), d6)
                     else .ok (none, d4) :
                      Except VErr (Option (Nat × Nat) × List Nat)) with
              | .error e => (.error e, v)
              | .ok (largestLocation, d5) =>
                match VarInt.Decode d5 with
                | .error e => (.error e, v)
                | .ok (numParams, _, d6) =>
                  match (if numParams > 0 then validateVersionParameters v numParams d6
                         else (.ok ([], d6), v)) with
                  | (.error e, v2) => (.error e, v2)
                  | (.ok (params, d7), v2) =>
                    (.ok ({ requestID := requestID, expiresMs := expires,
                            groupOrder := ob.headI, contentExists := eb.headI = 1,
                            largestLocation := largestLocation,
                            numParameters := numParams, parameters := params }, d7), v2)

structure FetchResult where
  requestID : Nat
  subscriberPriority : Nat
  groupOrder : Nat
  fetchType : Nat
  trackNamespace : Option (List (List Nat)) := none
  trackName : Option (List Nat) := none
  start : Option (Nat × Nat) := none
  endLoc : Option (Nat × Nat) := none
  joiningSubscribeID : Option Nat := none
  joiningStart : Option Nat := none
  numParameters : Nat := 0
  parameters : List Param := []
  deriving DecidableEq, Repr

/-- Standalone branch of Go `validateFetch` (fetch type 1): namespace tuple,
name (whose read error propagates raw), start and end locations; an end
location strictly below the start in `Location.Less` order is rejected with
an `ErrValidation`-wrapped error. -/
def fetchStandalone (data : List Nat) :
    Except VErr (List (List Nat) × List Nat × (Nat × Nat) × (Nat × Nat) × List Nat) :=
  match readTuple data with
  | .error e => .error e
  | .ok (nsFields, d1) =>
    match VarInt.Decode d1 with
    | .error e => .error e
    | .ok (nameLength, _, d2) =>
      match readFull nameLength d2 with
      | .error e => .error e
      | .ok (trackName, d3) =>
        match VarInt.Decode d3 with
        | .error e => .error e
        | .ok (startGroup, _, d4) =>
          match VarInt.Decode d4 with
          | .error e => .error e
          | .ok (startObject, _, d5) =>
            match VarInt.Decode d5 with
            | .error e => .error e
            | .ok (endGroup, _, d6) =>
              match VarInt.Decode d6 with
              | .error e => .error e
              | .ok (endObject, _, d7) =>
                let startLoc : Location := { GroupID := startGroup, ObjectID := startObject }
                let endLoc : Location := { GroupID := endGroup, ObjectID := endObject }
                if endLoc.Less startLoc then
                  .error (.validation "end location must be >= start location")
                else
                  .ok (nsFields, trackName, (startGroup, startObject),
                       (endGroup, endObject), d7)

/-- Go `validateFetch`: request id (checked), priority, group order, fetch
type 1..3, then the standalone or joining branch, version parameters, and
the insertion into `activeFetches`. -/
def validateFetch (v : MoQTValidator) (data : List Nat) :
    Except VErr (FetchResult × List Nat) × MoQTValidator :=
  match VarInt.Decode data with
  | .error e => (.error e, v)
  | .ok (requestID, _, d1) =>
    match validateRequestID v requestID true with
    | .error e => (.error e, v)
    | .ok _ =>
      match readFull 1 d1 with
      | .error _ => (.error (.validation "missing subscriber priority"), v)
      | .ok (pb, d2) =>
        match readFull 1 d2 with
        | .error _ => (.error (.validation "missing group order"), v)
        | .ok (ob, d3) =>
          if ob.headI > 2 then (.error (.protocol "invalid group order"), v)
          else
            match VarInt.Decode d3 with
            | .error e => (.error e, v)
            | .ok (fetchType, _, d4) =>
              if fetchType < 1 ∨ fetchType > 3 then
                (.error (.protocol "invalid fetch type"), v)
              else if fetchType = 1 then
                match fetchStandalone d4 with
                | .error e => (.error e, v)
                | .ok (nsFields, trackName, startPair, endPair, d5) =>
                  match VarInt.Decode d5 with
                  | .error e => (.error e, v)
                  | .ok (numParams, _, d6) =>
                    match (if numParams > 0 then validateVersionParameters v numParams d6
                           else (.ok ([], d6), v)) with
                    | (.error e, v2) => (.error e, v2)
                    | (.ok (params, d7), v2) =>
                      (.ok ({ requestID := requestID, subscriberPriority := pb.headI,
                              groupOrder := ob.headI, fetchType := fetchType,
                              trackNamespace := some nsFields,
                              trackName := some trackName,
                              start := some startPair, endLoc := some endPair,
                              numParameters := numParams, parameters := params }, d7),
                       { v2 with activeFetches := keyInsert v2.activeFetches requestID })
              else
                match VarInt.Decode d4 with
                | .error e => (.error e, v)
                | .ok (subscribeID, _, d5) =>
                  match VarInt.Decode d5 with
                  | .error e => (.error e, v)
                  | .ok (joiningStart, _, d6) =>
                    match VarInt.Decode d6 with
                    | .error e => (.error e, v)
                    | .ok (numParams, _, d7) =>
                      match (if numParams > 0 then validateVersionParameters v numParams d7
                             else (.ok ([], d7), v)) with
                      | (.error e, v2) => (.error e, v2)
                      | (.ok (params, d8), v2) =>
                        (.ok ({ requestID := requestID, subscriberPriority := pb.headI,
                                groupOrder := ob.headI, fetchType := fetchType,
                                joiningSubscribeID := some subscribeID,
                                joiningStart := some joiningStart,
                                numParameters := numParams,
                                parameters := params }, d8),
                         { v2 with activeFetches := keyInsert v2.activeFetches requestID })

structure AnnounceResult where
  requestID : Nat
  trackNamespace : List (List Nat)
  numParameters : Nat := 0
  parameters : List Param := []
  deriving DecidableEq, Repr

/-- Go `validateAnnounce`. -/
def validateAnnounce (v : MoQTValidator) (data : List Nat) :
    Except VErr (AnnounceResult × List Nat) × MoQTValidator :=
  match VarInt.Decode data with
  | .error e => (.error e, v)
  | .ok (requestID, _, d1) =>
    match validateRequestID v requestID true with
    | .error e => (.error e, v)
    | .ok _ =>
      match readTuple d1 with
      | .error e => (.error e, v)
      | .ok (nsFields, d2) =>
        match VarInt.Decode d2 with
        | .error e => (.error e, v)
        | .ok (numParams, _, d3) =>
          match (if numParams > 0 then validateVersionParameters v numParams d3
                 else (.ok ([], d3), v)) with
          | (.error e, v2) => (.error e, v2)
          | (.ok (params, d4), v2) =>
            (.ok ({ requestID := requestID, trackNamespace := nsFields,
                    numParameters := numParams, parameters := params }, d4), v2)

/-- Go `validateGoaway`: URI length capped at 8192; a zero length means a
null URI.  Never touches the validator state. -/
def validateGoaway (data : List Nat) : Except VErr (Option (List Nat) × List Nat) :=
  match VarInt.Decode data with
  | .error e => .error e
  | .ok (uriLength, _, d1) =>
    if uriLength > 8192 then .error (.protocol "new session URI too long")
    else if uriLength > 0 then
      match readFull uriLength d1 with
      | .error _ => .error (.validation "insufficient data for URI")
      | .ok (uri, d2) => .ok (some uri, d2)
    else .ok (none, d1)

/-- Go `validateMaxRequestID`: decodes the single varint and returns it; by
the code's own comment, no direction tracking and no comparison with any
prior value is performed, and the state is untouched. -/
def validateMaxRequestID (data : List Nat) : Except VErr (Nat × List Nat) :=
  match VarInt.Decode data with
  | .error e => .error e
  | .ok (requestID, _, d1) => .ok (requestID, d1)

structure TrackStatusRequestResult where
  requestID : Nat
  trackNamespace : List (List Nat)
  trackName : List Nat
  numParameters : Nat := 0
  parameters : List Param := []
  deriving DecidableEq, Repr

/-- Go `validateTrackStatusRequest` (name-read errors propagate raw). -/
def validateTrackStatusRequest (v : MoQTValidator) (data : List Nat) :
    Except VErr (TrackStatusRequestResult × List Nat) × MoQTValidator :=
  match VarInt.Decode data with
  | .error e => (.error e, v)
  | .ok (requestID, _, d1) =>
    match validateRequestID v requestID true with
    | .error e => (.error e, v)
    | .ok _ =>
      match readTuple d1 with
      | .error e => (.error e, v)
      | .ok (nsFields, d2) =>
        match VarInt.Decode d2 with
        | .error e => (.error e, v)
        | .ok (nameLength, _, d3) =>
          match readFull nameLength d3 with
          | .error e => (.error e, v)
          | .ok (trackName, d4) =>
            match VarInt.Decode d4 with
            | .error e => (.error e, v)
            | .ok (numParams, _, d5) =>
              match (if numParams > 0 then validateVersionParameters v numParams d5
                     else (.ok ([], d5), v)) with
              | (.error e, v2) => (.error e, v2)
              | (.ok (params, d6), v2) =>
                (.ok ({ requestID := requestID, trackNamespace := nsFields,
                        trackName := trackName, numParameters := numParams,
                        parameters := params }, d6), v2)

/-! Control-message framing and dispatch. -/

/-- Per-type payload details of a decoded control message. -/
inductive CtrlDetails where
  | clientSetup (r : ClientSetupResult)
  | serverSetup (r : ServerSetupResult)
  | subscribe (r : SubscribeResult)
  | subscribeOK (r : SubscribeOKResult)
  | fetch (r : FetchResult)
  | announce (r : AnnounceResult)
  | goaway (newSessionUri : Option (List Nat))
  | maxRequestID (value : Nat)
  | trackStatusRequest (r : TrackStatusRequestResult)
  | raw (payload : List Nat)
  deriving DecidableEq, Repr

/-- A decoded control message: type, declared 16-bit length, details. -/
structure CtrlResult where
  typeValue : Nat
  length : Nat
  details : CtrlDetails
  deriving DecidableEq, Repr

/-- Go `validateControlMessage`: varint type (any read failure becomes an
`ErrValidation`-wrapped error), type check, 16-bit big-endian length, the
length-delimited payload, then per-type dispatch on a fresh payload reader.
Returns the decoded record together with the bytes left unread after the
payload (Go leaves them in the reader). -/
def validateControlMessage (v : MoQTValidator) (data : List Nat) :
    Except VErr (CtrlResult × List Nat) × MoQTValidator :=
  match VarInt.Decode data with
  | .error _ => (.error (.validation "failed to read message type"), v)
  | .ok (msgType, _, d1) =>
    if ¬ isValidMessageType msgType then (.error (.protocol "unknown message type"), v)
    else
      match d1 with
      | hi :: lo :: d2 =>
        let msgLength := hi * 256 + lo
        match readFull msgLength d2 with
        | .error _ => (.error (.validation "message payload incomplete"), v)
        | .ok (payload, rest) =>
          if msgType = ClientSetup then
            match validateClientSetup payload with
            | .error e => (.error e, v)
            | .ok (r, _) =>
              (.ok ({ typeValue := msgType, length := msgLength,
                      details := .clientSetup r }, rest), v)
          else if msgType = ServerSetup then
            match validateServerSetup payload with
            | .error e => (.error e, v)
            | .ok (r, _) =>
              (.ok ({ typeValue := msgType, length := msgLength,
                      details := .serverSetup r }, rest), v)
          else if msgType = Subscribe then
            match validateSubscribe v payload with
            | (.error e, v2) => (.error e, v2)
            | (.ok (r, _), v2) =>
              (.ok ({ typeValue := msgType, length := msgLength,
                      details := .subscribe r }, rest), v2)
          else if msgType = SubscribeOK then
            match validateSubscribeOK v payload with
            | (.error e, v2) => (.error e, v2)
            | (.ok (r, _), v2) =>
              (.ok ({ typeValue := msgType, length := msgLength,
                      details := .subscribeOK r }, rest), v2)
          else if msgType = Fetch then
            match validateFetch v payload with
            | (.error e, v2) => (.error e, v2)
            | (.ok (r, _), v2) =>
              (.ok ({ typeValue := msgType, length := msgLength,
                      details := .fetch r }, rest), v2)
          else if msgType = Announce then
            match validateAnnounce v payload with
            | (.error e, v2) => (.error e, v2)
            | (.ok (r, _), v2) =>
              (.ok ({ typeValue := msgType, length := msgLength,
                      details := .announce r }, rest), v2)
          else if msgType = Goaway then
            match validateGoaway payload with
            | .error e => (.error e, v)
            | .ok (uri, _) =>
              (.ok ({ typeValue := msgType, length := msgLength,
                      details := .goaway uri }, rest), v)
          else if msgType = MaxRequestID then
            match validateMaxRequestID payload with
            | .error e => (.error e, v)
            | .ok (value, _) =>
              (.ok ({ typeValue := msgType, length := msgLength,
                      details := .maxRequestID value }, rest), v)
          else if msgType = TrackStatusRequest then
            match validateTrackStatusRequest v payload with
            | (.error e, v2) => (.error e, v2)
            | (.ok (r, _), v2) =>
              (.ok ({ typeValue := msgType, length := msgLength,
                      details := .trackStatusRequest r }, rest), v2)
          else
            (.ok ({ typeValue := msgType, length := msgLength,
                    details := .raw payload }, rest), v)
      | _ => (.error (.validation "insufficient data for message length"), v)

/-- Result of `ValidateMessage` (Go returns a generic record either way). -/
inductive MsgResult where
  | control (r : CtrlResult)
  | stream (r : StreamResult)
  deriving DecidableEq, Repr

/-- Go `ValidateMessage`: the public entry point for control streams and
unidirectional data streams; rejects an empty buffer up front. -/
def ValidateMessage (v : MoQTValidator) (data : List Nat) (isControlStream : Bool) :
    Except VErr MsgResult × MoQTValidator :=
  if data.length = 0 then (.error (.validation "empty message"), v)
  else if isControlStream then
    match validateControlMessage v data with
    | (.error e, v2) => (.error e, v2)
    | (.ok (r, _), v2) => (.ok (.control r), v2)
  else
    match validateDataStream data with
    | .error e => (.error e, v)
    | .ok r => (.ok (.stream r), v)

/-- The session states reachable from a fresh validator by validating any
sequence of buffers through the public entry points (`ValidateDatagram`
takes the receiver but never touches it, so it induces no transition). -/
inductive Reachable : MoQTValidator → Prop where
  | init : Reachable NewMoQTValidator
  | step (st : MoQTValidator) (data : List Nat) (isControlStream : Bool) :
      Reachable st → Reachable (ValidateMessage st data isControlStream).2

/-! Result classification helpers and concrete wire messages used in the
claim statements. -/

/-- Whether a result is a success. -/
def isOkE {α : Type} : Except VErr α → Bool
  | .ok _ => true
  | .error _ => false

/-- Whether a result is an `ErrValidation`-wrapped failure. -/
def isValidationErr {α : Type} : Except VErr α → Bool
  | .error (.validation _) => true
  | _ => false

/-- Whether a result is an `ErrProtocolViolation`-wrapped failure. -/
def isProtocolErr {α : Type} : Except VErr α → Bool
  | .error (.protocol _) => true
  | _ => false

/-- A CLIENT_SETUP frame carrying MAX_REQUEST_ID = 100 (type 0x02, varint
two-byte encoding 0x40 0x64) and MAX_AUTH_TOKEN_CACHE_SIZE = 25 (type
0x04). -/
def clientSetupMsg : List Nat := [0x20, 0, 8, 1, 1, 2, 2, 0x40, 100, 4, 25]

/-- A SUBSCRIBE frame: request id 0, track alias 10, namespace ["a"], name
"b", priority 128, group order 1, forward 1, filter NEXT_GROUP_START, no
parameters. -/
def subscribeMsg : List Nat :=
  [0x3, 0, 12, 0, 10, 1, 1, 0x61, 1, 0x62, 0x80, 1, 1, 1, 0]

/-- MAX_REQUEST_ID control frames carrying the values 5 and 3. -/
def maxReqMsg5 : List Nat := [0x15, 0, 1, 5]

def maxReqMsg3 : List Nat := [0x15, 0, 1, 3]

/-- An OBJECT_DATAGRAM_NO_EXT datagram: track alias 1, group 2, object 3,
priority 0, two payload bytes. -/
def datagramMsg : List Nat := [0, 1, 2, 3, 0, 0xAA, 0xBB]

/-- A standalone-FETCH frame whose end location (4,0) is strictly below its
start location (5,0): request id 0, priority 0, group order 0, fetch type 1,
namespace ["a"], name "b", no parameters. -/
def fetchInvertedMsg : List Nat :=
  [0x16, 0, 14, 0, 0, 0, 1, 1, 1, 0x61, 1, 0x62, 5, 0, 4, 0, 0]

/-- C1: the validator accepts a CLIENT_SETUP carrying MAX_REQUEST_ID = 100
and MAX_AUTH_TOKEN_CACHE_SIZE = 25 and reports both parameters in the
decoded record, yet returns the session state completely unchanged: the
negotiated values are never stored into `maxRequestIDClient`,
`maxRequestIDServer` or `maxAuthTokenCacheSize` (contrary to the claim, and
visible in the embedding from the fact that `validateSetupParameters` does
not even receive the state). -/
theorem C1_setup_params_not_stored :
    (ValidateMessage NewMoQTValidator clientSetupMsg true).1 =
      .ok (.control
        ({ typeValue := 0x20, length := 8,
           details := .clientSetup
             ({ numVersions := 1, supportedVersions := [1], numParameters := 2,
                parameters := [{ type := SetupParamMaxRequestID, numValue := some 100 },
                               { type := SetupParamMaxAuthTokenCacheSize,
                                 numValue := some 25 }] }) })) ∧
    (ValidateMessage NewMoQTValidator clientSetupMsg true).2 = NewMoQTValidator ∧
    (ValidateMessage NewMoQTValidator clientSetupMsg true).2.maxRequestIDClient = 0 ∧
    (ValidateMessage NewMoQTValidator clientSetupMsg true).2.maxRequestIDServer = 0 ∧
    (ValidateMessage NewMoQTValidator clientSetupMsg true).2.maxAuthTokenCacheSize = 0 :=
  ⟨rfl, rfl, rfl, rfl, rfl⟩

/-- C2: two SUBSCRIBE messages with the same track alias 10 are both
accepted — after the first subscription is stored (and live), validating the
identical second SUBSCRIBE succeeds instead of failing with a
ProtocolViolation: `validateSubscribe` never compares track aliases
(`activeTracks` and the `DuplicateTrackAlias` code are declared but never
used). -/
theorem C2_track_alias_not_checked :
    isOkE (ValidateMessage NewMoQTValidator subscribeMsg true).1 = true ∧
    (ValidateMessage NewMoQTValidator subscribeMsg true).2.activeSubscriptions =
      [(0, { trackAlias := 10,
             fullTrackName := { Namespace := { Fields := [[0x61]] }, Name := [0x62] },
             filterType := 1 })] ∧
    isOkE (ValidateMessage (ValidateMessage NewMoQTValidator subscribeMsg true).2
            subscribeMsg true).1 = true := by
  decide

/-- C3: a MAX_REQUEST_ID of 5 followed by a MAX_REQUEST_ID of 3 on the same
session are both accepted and neither changes the session state —
`validateMaxRequestID` performs no monotonicity check and records no prior
value (its own comment says a real implementation would). -/
theorem C3_max_request_id_not_tracked :
    ValidateMessage NewMoQTValidator maxReqMsg5 true =
      (.ok (.control ({ typeValue := MaxRequestID, length := 1,
                        details := .maxRequestID 5 })), NewMoQTValidator) ∧
    ValidateMessage NewMoQTValidator maxReqMsg3 true =
      (.ok (.control ({ typeValue := MaxRequestID, length := 1,
                        details := .maxRequestID 3 })), NewMoQTValidator) :=
  ⟨rfl, rfl⟩

/-- C4: for every value below `2 ^ 62` the varint codec round-trips —
`Encode` succeeds, decoding the encoded bytes returns exactly the value with
a consumed-byte count equal to the encoded length — and for every value at
or above `2 ^ 62` `Encode` fails. -/
theorem C4_varint_roundtrip (v : Nat) :
    (v < 2 ^ 62 →
      VarInt.Encode v = .ok (vi v) ∧
      VarInt.Decode (vi v) = .ok (v, (vi v).length, [])) ∧
    (2 ^ 62 ≤ v → VarInt.Encode v = .error .varIntTooLarge) := by
  constructor
  · intro h
    refine ⟨VarInt.Encode_ok h, ?_⟩
    simpa using VarInt.Decode_vi_append h []
  · exact fun h => VarInt.Encode_fail h

/-- Witness for C4 at the concrete values 77 and `2 ^ 62`. -/
theorem C4_varint_roundtrip_witness :
    (VarInt.Encode 77 = .ok (vi 77) ∧
      VarInt.Decode (vi 77) = .ok (77, (vi 77).length, [])) ∧
    VarInt.Encode (2 ^ 62) = .error .varIntTooLarge :=
  ⟨(C4_varint_roundtrip 77).1 (by norm_num), (C4_varint_roundtrip (2 ^ 62)).2 (by norm_num)⟩

/-- C6 counterexample: the claim fails on the code.  This
OBJECT_DATAGRAM_NO_EXT datagram is accepted, and so is the same datagram
with its last byte removed — the truncated byte simply disappears from the
payload (which is read as "all remaining bytes"), a silent success instead
of the claimed ValidationError. -/
theorem C6_truncation_counterexample :
    isOkE (ValidateDatagram datagramMsg) = true ∧
    isOkE (ValidateDatagram datagramMsg.dropLast) = true := by
  decide

/-- C7 counterexample: the claim's classification fails on the code.  A
standalone FETCH whose end location (4,0) is strictly below its start (5,0)
is rejected, but with the `ErrValidation`-wrapped error of `validateFetch`
(`"end location must be >= start location"`), not a ProtocolViolation. -/
theorem C7_range_inversion_counterexample :
    (ValidateMessage NewMoQTValidator fetchInvertedMsg true).1 =
      .error (.validation "end location must be >= start location") ∧
    isProtocolErr (ValidateMessage NewMoQTValidator fetchInvertedMsg true).1 = false :=
  ⟨rfl, rfl⟩

/-- C9: an empty buffer fails with an `ErrValidation`-wrapped error at every
entry point (`ValidateMessage` for control and for stream channels,
`ValidateDatagram` for datagrams) and the session state is returned
unchanged. -/
theorem C9_empty_buffer (st : MoQTValidator) (isControlStream : Bool) :
    ValidateMessage st [] isControlStream = (.error (.validation "empty message"), st) ∧
    ValidateDatagram [] = .error (.validation "empty datagram") :=
  ⟨rfl, rfl⟩

/-- C10: a version parameter of type AUTHORIZATION_TOKEN (0x01) with a
zero-length value is accepted without invoking the auth-token subparser: the
parameter list validates with no error and the state (in particular the
token cache) is unchanged, even though `validateAuthToken` on the empty
token buffer would fail (with `io.EOF`, since there is no alias-type
field). -/
theorem C10_empty_auth_token_param (st : MoQTValidator) (rest : List Nat) :
    validateVersionParameters st 1 (1 :: 0 :: rest) =
      (.ok ([{ type := 1, numValue := none, bytesValue := some [] }], rest), st) ∧
    validateAuthToken st [] = (.error .eof, st) := by
  constructor
  · have h1 : VarInt.Decode (1 :: 0 :: rest) = .ok (1, 1, 0 :: rest) :=
      VarInt.Decode_cons_p0 (by decide) _
    have h2 : VarInt.Decode (0 :: rest) = .ok (0, 1, rest) :=
      VarInt.Decode_cons_p0 (by decide) _
    have h3 : readFull 0 rest = .ok ([], rest) := by
      unfold readFull
      rw [if_pos (Nat.zero_le _)]
      simp
    show validateVersionParameters st (0 + 1) (1 :: 0 :: rest) = _
    simp only [validateVersionParameters, h1, h2, h3]
    norm_num [VersionParamAuthorizationToken]
  · rfl

/-! Token-cache invariant (C5).  In every reachable state the token cache is
in fact empty: `maxAuthTokenCacheSize` is never written (it stays 0), so the
budget check rejects every REGISTER, and no other operation can populate the
cache.  `TokenClean` is the inductive invariant; the claimed budget
equations follow from it. -/

/-- Sum of `8 + len(value)` over the registered aliases. -/
def sumTokenSizes (l : List (Nat × List Nat)) : Nat :=
  (l.map (fun p => 8 + p.2.length)).sum

/-- Inductive invariant: empty cache, zero size counter, zero maximum. -/
def TokenClean (v : MoQTValidator) : Prop :=
  v.authTokens = [] ∧ v.currentAuthTokenSize = 0 ∧ v.maxAuthTokenCacheSize = 0

theorem NewMoQTValidator_clean : TokenClean NewMoQTValidator :=
  ⟨rfl, rfl, rfl⟩

/-- Under `TokenClean`, `validateAuthToken` returns the state unchanged: a
REGISTER always overflows the zero budget, a DELETE finds nothing, a
USE_ALIAS fails, and USE_VALUE never mutates.  The length bound (guaranteed
by the 65535 parameter cap in the callers) rules out `uint64` wrap-around in
the budget check. -/
theorem validateAuthToken_clean {v : MoQTValidator} (hcl : TokenClean v)
    {d : List Nat} (hlen : d.length ≤ 65535) :
    (validateAuthToken v d).2 = v := by
  obtain ⟨htok, hcur, hmax⟩ := hcl
  unfold validateAuthToken
  rcases h1 : VarInt.Decode d with e | ⟨aliasType, n1, d1⟩
  · simp only [h1]
  simp only [h1]
  by_cases hgt : aliasType > 3
  · rw [if_pos hgt]
  rw [if_neg hgt]
  by_cases hle : aliasType ≤ 2
  · rw [if_pos hle]
    rcases h2 : VarInt.Decode d1 with e | ⟨tokenAlias, n2, d2⟩
    · simp only [h2]
    simp only [h2]
    by_cases hreg : aliasType = AliasTypeRegister
    · rw [if_pos hreg]
      rcases h3 : VarInt.Decode d2 with e | ⟨tokenType, n3, d3⟩
      · simp only [h3]
      simp only [h3]
      have hd1 := VarInt.Decode_consumes h1
      have hd2 := VarInt.Decode_consumes h2
      have hd3 := VarInt.Decode_consumes h3
      have hcond : add64 v.currentAuthTokenSize (add64 8 d3.length) >
          v.maxAuthTokenCacheSize := by
        rw [hcur, hmax]
        unfold add64
        have hsm : (8 + d3.length) % 2 ^ 64 = 8 + d3.length :=
          Nat.mod_eq_of_lt (by omega)
        omega
      rw [if_pos hcond]
    · rw [if_neg hreg]
      by_cases hdel : aliasType = AliasTypeDelete
      · rw [if_pos hdel, htok]
        rfl
      · rw [if_neg hdel, htok]
        rfl
  · rw [if_neg hle]
    rcases h2 : VarInt.Decode d1 with e | ⟨tokenType, n2, d2⟩
    · simp only [h2]
    simp only [h2]

/-- Under `TokenClean`, a whole version-parameter list leaves the state
unchanged. -/
theorem validateVersionParameters_clean {v : MoQTValidator} (hcl : TokenClean v)
    (n : Nat) (data : List Nat) : (validateVersionParameters v n data).2 = v := by
  induction n generalizing data with
  | zero => rfl
  | succ n ih =>
    rcases h1 : VarInt.Decode data with e | ⟨paramType, n1, d1⟩
    · simp only [validateVersionParameters, h1]
    simp only [validateVersionParameters, h1]
    by_cases hpar : paramType % 2 = 0
    · rw [if_pos hpar]
      rcases h2 : VarInt.Decode d1 with e | ⟨value, n2, d2⟩
      · simp only [h2]
      simp only [h2]
      rcases hrec : validateVersionParameters v n d2 with ⟨res, v2⟩
      have hv2 : v2 = v := by
        have h4 := congrArg Prod.snd hrec
        rw [ih d2] at h4
        exact h4.symm
      cases res <;> simp [hrec, hv2]
    · rw [if_neg hpar]
      rcases h2 : VarInt.Decode d1 with e | ⟨len, n2, d2⟩
      · simp only [h2]
      simp only [h2]
      by_cases hbig : len > 65535
      · rw [if_pos hbig]
      rw [if_neg hbig]
      rcases h3 : readFull len d2 with e | ⟨value, d3⟩
      · simp only [h3]
      simp only [h3]
      have hvlen : value.length ≤ 65535 := by
        have := (readFull_ok_inv h3).2.2.2.1
        omega
      by_cases hauth : paramType = VersionParamAuthorizationToken ∧ value.length > 0
      · rw [if_pos hauth]
        rcases hat : validateAuthToken v value with ⟨ares, v2⟩
        have hv2 : v2 = v := by
          have h4 := congrArg Prod.snd hat
          rw [validateAuthToken_clean hcl hvlen] at h4
          exact h4.symm
        subst hv2
        cases ares with
        | error e => simp [hat]
        | ok a =>
          rcases hrec : validateVersionParameters v2 n d3 with ⟨res, v3⟩
          have hv3 : v3 = v2 := by
            have h5 := congrArg Prod.snd hrec
            rw [ih d3] at h5
            exact h5.symm
          cases res <;> simp [hat, hrec, hv3]
      · rw [if_neg hauth]
        rcases hrec : validateVersionParameters v n d3 with ⟨res, v3⟩
        have hv3 : v3 = v := by
          have h4 := congrArg Prod.snd hrec
          rw [ih d3] at h4
          exact h4.symm
        cases res <;> simp [hrec, hv3]

theorem versionParamsIf_snd {v : MoQTValidator} (hcl : TokenClean v) (numParams : Nat)
    (d : List Nat) :
    (if numParams > 0 then validateVersionParameters v numParams d
     else (.ok ([], d), v)).2 = v := by
  split
  · exact validateVersionParameters_clean hcl _ _
  · rfl

theorem validateSubscribe_clean {v : MoQTValidator} (hcl : TokenClean v) (data : List Nat) :
    TokenClean (validateSubscribe v data).2 := by
  unfold validateSubscribe
  repeat' split
  all_goals first
  | exact hcl
  | (rename_i heq
     have hw := congrArg Prod.snd heq
     rw [versionParamsIf_snd hcl] at hw
     simp at hw
     rw [← hw]
     exact hcl)

theorem validateSubscribeOK_clean {v : MoQTValidator} (hcl : TokenClean v) (data : List Nat) :
    TokenClean (validateSubscribeOK v data).2 := by
  unfold validateSubscribeOK
  repeat' split
  all_goals first
  | exact hcl
  | (rename_i heq
     have hw := congrArg Prod.snd heq
     rw [versionParamsIf_snd hcl] at hw
     simp at hw
     rw [← hw]
     exact hcl)

theorem validateFetch_clean {v : MoQTValidator} (hcl : TokenClean v) (data : List Nat) :
    TokenClean (validateFetch v data).2 := by
  unfold validateFetch
  repeat' split
  all_goals first
  | exact hcl
  | (rename_i heq
     have hw := congrArg Prod.snd heq
     rw [versionParamsIf_snd hcl] at hw
     simp at hw
     rw [← hw]
     exact hcl)

theorem validateAnnounce_clean {v : MoQTValidator} (hcl : TokenClean v) (data : List Nat) :
    TokenClean (validateAnnounce v data).2 := by
  unfold validateAnnounce
  repeat' split
  all_goals first
  | exact hcl
  | (rename_i heq
     have hw := congrArg Prod.snd heq
     rw [versionParamsIf_snd hcl] at hw
     simp at hw
     rw [← hw]
     exact hcl)

theorem validateTrackStatusRequest_clean {v : MoQTValidator} (hcl : TokenClean v)
    (data : List Nat) : TokenClean (validateTrackStatusRequest v data).2 := by
  unfold validateTrackStatusRequest
  repeat' split
  all_goals first
  | exact hcl
  | (rename_i heq
     have hw := congrArg Prod.snd heq
     rw [versionParamsIf_snd hcl] at hw
     simp at hw
     rw [← hw]
     exact hcl)


theorem validateControlMessage_clean {v : MoQTValidator} (hcl : TokenClean v)
    (data : List Nat) : TokenClean (validateControlMessage v data).2 := by
  unfold validateControlMessage
  rcases h1 : VarInt.Decode data with e | ⟨msgType, n1, d1⟩
  · simp only [h1]; exact hcl
  simp only [h1]
  by_cases hval : ¬ isValidMessageType msgType = true
  · rw [if_pos hval]; exact hcl
  rw [if_neg hval]
  cases d1 with
  | nil => exact hcl
  | cons hi tl =>
    cases tl with
    | nil => exact hcl
    | cons lo d2 =>
      rcases h2 : readFull (hi * 256 + lo) d2 with e | ⟨payload, rest⟩
      · simp only [h2]; exact hcl
      simp only [h2]
      by_cases hc1 : msgType = ClientSetup
      · rw [if_pos hc1]
        rcases h3 : validateClientSetup payload with e | ⟨r, s⟩
        · simp only [h3]; exact hcl
        · simp only [h3]; exact hcl
      rw [if_neg hc1]
      by_cases hc2 : msgType = ServerSetup
      · rw [if_pos hc2]
        rcases h3 : validateServerSetup payload with e | ⟨r, s⟩
        · simp only [h3]; exact hcl
        · simp only [h3]; exact hcl
      rw [if_neg hc2]
      by_cases hc3 : msgType = Subscribe
      · rw [if_pos hc3]
        rcases h3 : validateSubscribe v payload with ⟨res, v2⟩
        have hv2 : TokenClean v2 := by
          have h4 := validateSubscribe_clean hcl payload
          rw [h3] at h4
          exact h4
        cases res with
        | error e => simp only [h3]; exact hv2
        | ok pr => obtain ⟨r, s⟩ := pr; simp only [h3]; exact hv2
      rw [if_neg hc3]
      by_cases hc4 : msgType = SubscribeOK
      · rw [if_pos hc4]
        rcases h3 : validateSubscribeOK v payload with ⟨res, v2⟩
        have hv2 : TokenClean v2 := by
          have h4 := validateSubscribeOK_clean hcl payload
          rw [h3] at h4
          exact h4
        cases res with
        | error e => simp only [h3]; exact hv2
        | ok pr => obtain ⟨r, s⟩ := pr; simp only [h3]; exact hv2
      rw [if_neg hc4]
      by_cases hc5 : msgType = Fetch
      · rw [if_pos hc5]
        rcases h3 : validateFetch v payload with ⟨res, v2⟩
        have hv2 : TokenClean v2 := by
          have h4 := validateFetch_clean hcl payload
          rw [h3] at h4
          exact h4
        cases res with
        | error e => simp only [h3]; exact hv2
        | ok pr => obtain ⟨r, s⟩ := pr; simp only [h3]; exact hv2
      rw [if_neg hc5]
      by_cases hc6 : msgType = Announce
      · rw [if_pos hc6]
        rcases h3 : validateAnnounce v payload with ⟨res, v2⟩
        have hv2 : TokenClean v2 := by
          have h4 := validateAnnounce_clean hcl payload
          rw [h3] at h4
          exact h4
        cases res with
        | error e => simp only [h3]; exact hv2
        | ok pr => obtain ⟨r, s⟩ := pr; simp only [h3]; exact hv2
      rw [if_neg hc6]
      by_cases hc7 : msgType = Goaway
      · rw [if_pos hc7]
        rcases h3 : validateGoaway payload with e | ⟨uri, s⟩
        · simp only [h3]; exact hcl
        · simp only [h3]; exact hcl
      rw [if_neg hc7]
      by_cases hc8 : msgType = MaxRequestID
      · rw [if_pos hc8]
        rcases h3 : validateMaxRequestID payload with e | ⟨value, s⟩
        · simp only [h3]; exact hcl
        · simp only [h3]; exact hcl
      rw [if_neg hc8]
      by_cases hc9 : msgType = TrackStatusRequest
      · rw [if_pos hc9]
        rcases h3 : validateTrackStatusRequest v payload with ⟨res, v2⟩
        have hv2 : TokenClean v2 := by
          have h4 := validateTrackStatusRequest_clean hcl payload
          rw [h3] at h4
          exact h4
        cases res with
        | error e => simp only [h3]; exact hv2
        | ok pr => obtain ⟨r, s⟩ := pr; simp only [h3]; exact hv2
      rw [if_neg hc9]
      exact hcl

theorem ValidateMessage_clean {v : MoQTValidator} (hcl : TokenClean v) (data : List Nat)
    (isControlStream : Bool) : TokenClean (ValidateMessage v data isControlStream).2 := by
  unfold ValidateMessage
  split
  · exact hcl
  split
  · rcases h1 : validateControlMessage v data with ⟨res, v2⟩
    have hv2 : TokenClean v2 := by
      have h2 := validateControlMessage_clean hcl data
      rw [h1] at h2
      exact h2
    cases res with
    | error e => simp only [h1]; exact hv2
    | ok pr => obtain ⟨r, rest⟩ := pr; simp only [h1]; exact hv2
  · rcases h1 : validateDataStream data with e | r
    · simp only [h1]; exact hcl
    · simp only [h1]; exact hcl
/-- Every reachable session state has an empty token cache with zero size
and zero maximum. -/
theorem Reachable_clean {st : MoQTValidator} (h : Reachable st) : TokenClean st := by
  induction h with
  | init => exact NewMoQTValidator_clean
  | step st data isControlStream hst ih => exact ValidateMessage_clean ih data isControlStream

/-- Wire bytes of an auth-token REGISTER operation: alias type 1, token
alias, token type, then the token value as the remaining bytes. -/
def registerTokenBytes (tokenAlias tokenType : Nat) (value : List Nat) : List Nat :=
  vi 1 ++ vi tokenAlias ++ vi tokenType ++ value

/-- A REGISTER whose insertion would exceed the budget fails with the
cache-overflow ProtocolViolation and leaves the state untouched (the
no-wrap bound reflects Go's `uint64` addition in the check). -/
theorem validateAuthToken_register_overflow {v : MoQTValidator}
    {tokenAlias tokenType : Nat} {value : List Nat}
    (ha : tokenAlias < 2 ^ 62) (ht : tokenType < 2 ^ 62)
    (hov : v.currentAuthTokenSize + (8 + value.length) > v.maxAuthTokenCacheSize)
    (hnw : v.currentAuthTokenSize + 8 + value.length < 2 ^ 64) :
    validateAuthToken v (registerTokenBytes tokenAlias tokenType value) =
      (.error (.protocol "auth token cache overflow"), v) := by
  unfold validateAuthToken registerTokenBytes
  have hd1 : VarInt.Decode (vi 1 ++ vi tokenAlias ++ vi tokenType ++ value) =
      .ok (1, (vi 1).length, vi tokenAlias ++ vi tokenType ++ value) := by
    have := @VarInt.Decode_vi_append 1 (by norm_num)
      (vi tokenAlias ++ vi tokenType ++ value)
    simpa [List.append_assoc] using this
  rw [hd1]
  have hd2 : VarInt.Decode (vi tokenAlias ++ vi tokenType ++ value) =
      .ok (tokenAlias, (vi tokenAlias).length, vi tokenType ++ value) := by
    have := VarInt.Decode_vi_append ha (vi tokenType ++ value)
    simpa [List.append_assoc] using this
  simp only [hd2]
  have hd3 : VarInt.Decode (vi tokenType ++ value) =
      .ok (tokenType, (vi tokenType).length, value) := VarInt.Decode_vi_append ht value
  norm_num [AliasTypeRegister, hd3]
  have hsz : add64 8 value.length = 8 + value.length := by
    unfold add64
    exact Nat.mod_eq_of_lt (by omega)
  have hcond : add64 v.currentAuthTokenSize (add64 8 value.length) >
      v.maxAuthTokenCacheSize := by
    rw [hsz]
    unfold add64
    rw [Nat.mod_eq_of_lt (by omega)]
    omega
  intro hcontra
  omega

/-- C5: in every session state reachable through the validator's entry
points, the sum of `8 + len(value)` over the registered auth-token aliases
equals `currentAuthTokenSize` and `currentAuthTokenSize` is at most
`maxAuthTokenCacheSize`; and an auth-token REGISTER whose insertion would
exceed `maxAuthTokenCacheSize` fails with a ProtocolViolation and leaves the
cache, the size counter, and the whole state unchanged.  (In this code the
reachable caches are in fact all empty, because `maxAuthTokenCacheSize` is
never raised from 0, which makes the budget equations hold.) -/
theorem C5_token_cache_budget :
    (∀ st : MoQTValidator, Reachable st →
      sumTokenSizes st.authTokens = st.currentAuthTokenSize ∧
      st.currentAuthTokenSize ≤ st.maxAuthTokenCacheSize) ∧
    (∀ (st : MoQTValidator) (tokenAlias tokenType : Nat) (value : List Nat),
      tokenAlias < 2 ^ 62 → tokenType < 2 ^ 62 →
      st.currentAuthTokenSize + (8 + value.length) > st.maxAuthTokenCacheSize →
      st.currentAuthTokenSize + 8 + value.length < 2 ^ 64 →
      validateAuthToken st (registerTokenBytes tokenAlias tokenType value) =
        (.error (.protocol "auth token cache overflow"), st)) := by
  constructor
  · intro st h
    obtain ⟨htok, hcur, hmax⟩ := Reachable_clean h
    rw [htok, hcur, hmax]
    exact ⟨rfl, Nat.le_refl 0⟩
  · intro st tokenAlias tokenType value ha ht hov hnw
    exact validateAuthToken_register_overflow ha ht hov hnw

/-- Witness for C5 at the initial state and the REGISTER of an empty token
under the zero budget. -/
theorem C5_token_cache_budget_witness :
    (sumTokenSizes NewMoQTValidator.authTokens = NewMoQTValidator.currentAuthTokenSize ∧
      NewMoQTValidator.currentAuthTokenSize ≤ NewMoQTValidator.maxAuthTokenCacheSize) ∧
    validateAuthToken NewMoQTValidator (registerTokenBytes 7 0 [0xAB]) =
      (.error (.protocol "auth token cache overflow"), NewMoQTValidator) :=
  ⟨C5_token_cache_budget.1 NewMoQTValidator Reachable.init,
   C5_token_cache_budget.2 NewMoQTValidator 7 0 [0xAB] (by norm_num) (by norm_num)
     (by decide) (by decide)⟩

/-! Subgroup object ordering (C8): an encoder for subgroup objects and the
proof that a stream whose decoded object ids are not strictly ascending is
rejected with the ascending-ids ProtocolViolation. -/

/-- Source form of one subgroup object to be put on the wire: object id, raw
extension-header bytes (used only when the header type carries extensions),
payload, and the explicit status sent when the payload is empty. -/
structure SubObjSpec where
  objectID : Nat
  extBytes : List Nat := []
  payload : List Nat := []
  status : Nat := 0
  deriving DecidableEq, Repr

/-- Wire encoding of one subgroup object, following the grammar
`validateSubgroupObject` parses. -/
def encodeSubgroupObject (ext : Bool) (o : SubObjSpec) : List Nat :=
  vi o.objectID ++
  (if ext then vi o.extBytes.length ++ o.extBytes else []) ++
  vi o.payload.length ++
  (if o.payload.length = 0 then vi o.status else o.payload)

/-- Wire encoding of a sequence of subgroup objects. -/
def encodeSubObjs (ext : Bool) : List SubObjSpec → List Nat
  | [] => []
  | o :: os => encodeSubgroupObject ext o ++ encodeSubObjs ext os

/-- Well-formedness of an object spec: varint-encodable fields, a valid
status when the payload is empty, and (when extensions are carried)
extension bytes that the extension-header reader accepts. -/
def WFObj (ext : Bool) (o : SubObjSpec) : Prop :=
  o.objectID < 2 ^ 62 ∧ o.payload.length < 2 ^ 62 ∧
  (o.payload.length = 0 → isValidObjectStatus o.status = true ∧ o.status < 2 ^ 62) ∧
  (ext = true → o.extBytes.length < 2 ^ 62 ∧
    isOkE (validateExtensionHeaders o.extBytes) = true)

theorem subgroupObjExt_encode {ext : Bool} {extBytes : List Nat}
    (h : ext = true → extBytes.length < 2 ^ 62 ∧
      isOkE (validateExtensionHeaders extBytes) = true) (tail : List Nat) :
    ∃ a b, subgroupObjExt ext
      ((if ext then vi extBytes.length ++ extBytes else []) ++ tail) = .ok (a, b, tail) := by
  cases ext with
  | false =>
    refine ⟨none, [], ?_⟩
    simp [subgroupObjExt]
  | true =>
    obtain ⟨hlen, hok⟩ := h rfl
    rw [if_pos rfl]
    unfold subgroupObjExt
    rw [if_pos rfl]
    have hd : VarInt.Decode (vi extBytes.length ++ (extBytes ++ tail)) =
        .ok (extBytes.length, (vi extBytes.length).length, extBytes ++ tail) :=
      VarInt.Decode_vi_append hlen _
    rw [List.append_assoc, hd]
    dsimp only
    by_cases hpos : extBytes.length > 0
    · rw [if_pos hpos, readFull_exact]
      dsimp only
      cases hvh : validateExtensionHeaders extBytes with
      | error e => rw [hvh] at hok; exact absurd hok (by simp [isOkE])
      | ok hs => exact ⟨some extBytes.length, hs, rfl⟩
    · rw [if_neg hpos]
      have hnil : extBytes = [] := List.length_eq_zero.mp (by omega)
      subst hnil
      exact ⟨some 0, [], rfl⟩

/-- Decoding an encoded well-formed object at the head of a buffer succeeds,
consumes exactly the encoding, and returns the encoded object id. -/
theorem validateSubgroupObject_encode {ext : Bool} {o : SubObjSpec} (hwf : WFObj ext o)
    (rest : List Nat) :
    ∃ obj : SubgroupObject,
      validateSubgroupObject ext (encodeSubgroupObject ext o ++ rest) = .ok (obj, rest) ∧
        obj.objectID = o.objectID := by
  obtain ⟨hid, hplen, hstat, hext⟩ := hwf
  unfold encodeSubgroupObject
  unfold validateSubgroupObject
  simp only [List.append_assoc]
  rw [VarInt.Decode_vi_append hid]
  dsimp only
  obtain ⟨a, b, hstep⟩ := subgroupObjExt_encode hext
    (vi o.payload.length ++ ((if o.payload.length = 0 then vi o.status else o.payload) ++ rest))
  rw [hstep]
  dsimp only
  rw [VarInt.Decode_vi_append hplen]
  dsimp only
  by_cases hz : o.payload.length = 0
  · simp only [if_pos hz]
    rw [VarInt.Decode_vi_append (hstat hz).2]
    dsimp only
    rw [if_pos (hstat hz).1]
    exact ⟨_, rfl, rfl⟩
  · simp only [if_neg hz]
    have hrf : readFull o.payload.length (o.payload ++ rest) = .ok (o.payload, rest) :=
      readFull_exact o.payload rest
    rw [hrf]
    dsimp only
    exact ⟨_, rfl, rfl⟩

theorem vi_length_pos {v : Nat} (h : v < 2 ^ 62) : 1 ≤ (vi v).length :=
  (VarInt.Decode_consumes (VarInt.Decode_vi_append h [])).2

theorem readFull_one_cons (a : Nat) (l : List Nat) : readFull 1 (a :: l) = .ok ([a], l) := by
  unfold readFull
  rw [if_pos (by simp)]
  simp

/-- With a positive object count, the loop rejects the encoded objects as
soon as the chain `lastID, ids...` stops being strictly increasing. -/
theorem subgroupLoop_encode_violation {ext : Bool} (os : List SubObjSpec)
    (hwf : ∀ o ∈ os, WFObj ext o) :
    ∀ (c lastID : Nat) (fid : Option Nat) (acc : List SubgroupObject),
      0 < c →
      ¬ List.Chain' (· < ·) (lastID :: os.map SubObjSpec.objectID) →
      subgroupLoop ext (encodeSubObjs ext os) c fid lastID acc =
        .error (.protocol "object IDs must be ascending") := by
  induction os with
  | nil =>
    intro c lastID fid acc hc hbad
    exact absurd (by simp) hbad
  | cons o os ih =>
    intro c lastID fid acc hc hbad
    obtain ⟨obj, hparse, hoid⟩ :=
      validateSubgroupObject_encode (hwf o (by simp)) (encodeSubObjs ext os)
    rw [subgroupLoop, show encodeSubObjs ext (o :: os) =
      encodeSubgroupObject ext o ++ encodeSubObjs ext os from rfl, hparse]
    dsimp only
    by_cases hle : obj.objectID ≤ lastID
    · rw [if_pos ⟨hc, hle⟩]
    · rw [if_neg (by intro hand; exact hle hand.2)]
      have h1 : ¬ List.Chain' (· < ·) (o.objectID :: os.map SubObjSpec.objectID) := by
        intro hch
        apply hbad
        rw [List.map_cons, List.chain'_cons]
        exact ⟨by omega, hch⟩
      exact ih (fun o2 ho2 => hwf o2 (by simp [ho2])) (c + 1) obj.objectID _ _
        (Nat.succ_pos c) (by rw [hoid]; exact h1)

/-- From the fresh loop start (object count 0), non-ascending encoded ids
are rejected. -/
theorem subgroupLoop_encode_violation_start {ext : Bool} (os : List SubObjSpec)
    (hwf : ∀ o ∈ os, WFObj ext o) (fid : Option Nat) (lastID : Nat)
    (acc : List SubgroupObject)
    (hbad : ¬ List.Chain' (· < ·) (os.map SubObjSpec.objectID)) :
    subgroupLoop ext (encodeSubObjs ext os) 0 fid lastID acc =
      .error (.protocol "object IDs must be ascending") := by
  cases os with
  | nil => exact absurd (by simp) hbad
  | cons o os =>
    obtain ⟨obj, hparse, hoid⟩ :=
      validateSubgroupObject_encode (hwf o (by simp)) (encodeSubObjs ext os)
    rw [subgroupLoop, show encodeSubObjs ext (o :: os) =
      encodeSubgroupObject ext o ++ encodeSubObjs ext os from rfl, hparse]
    dsimp only
    rw [if_neg (by intro hand; exact Nat.lt_irrefl 0 hand.1)]
    refine subgroupLoop_encode_violation os (fun o2 ho2 => hwf o2 (by simp [ho2])) 1
      obj.objectID _ _ Nat.one_pos ?_
    rw [hoid]
    simpa using hbad

theorem subgroupHeaderSgid_encode {sgPresent : Bool} {subgroupID : Nat}
    (hsg : subgroupID < 2 ^ 62) (tail : List Nat) :
    ∃ x, subgroupHeaderSgid sgPresent
      ((if sgPresent then vi subgroupID else []) ++ tail) = .ok (x, tail) := by
  cases sgPresent with
  | false => exact ⟨none, by simp [subgroupHeaderSgid]⟩
  | true =>
    refine ⟨some subgroupID, ?_⟩
    rw [if_pos rfl]
    unfold subgroupHeaderSgid
    rw [if_pos rfl, VarInt.Decode_vi_append hsg]

/-- C8: a subgroup-header data stream (any of the six header types, any
header fields, with any sequence of well-formed encoded objects) whose
object ids are not strictly ascending fails with the ascending-ids
ProtocolViolation — even when earlier objects decoded completely. -/
theorem C8_subgroup_object_ordering
    (streamType trackAlias groupID subgroupID priority : Nat)
    (sgPresent extPresent : Bool) (os : List SubObjSpec)
    (hinfo : subgroupTypeInfo streamType = some (sgPresent, extPresent))
    (hrange : 0x08 ≤ streamType ∧ streamType ≤ 0x0D)
    (hta : trackAlias < 2 ^ 62) (hg : groupID < 2 ^ 62) (hsg : subgroupID < 2 ^ 62)
    (hwf : ∀ o ∈ os, WFObj extPresent o)
    (hbad : ¬ List.Chain' (· < ·) (os.map SubObjSpec.objectID)) :
    validateDataStream
      (vi streamType ++ vi trackAlias ++ vi groupID ++
        (if sgPresent then vi subgroupID else []) ++
        priority :: encodeSubObjs extPresent os) =
      .error (.protocol "object IDs must be ascending") := by
  have hty : streamType < 2 ^ 62 := by omega
  unfold validateDataStream
  rw [if_neg (by
    simp only [List.length_append, List.length_cons]
    have := vi_length_pos hty
    omega)]
  simp only [List.append_assoc]
  rw [VarInt.Decode_vi_append hty]
  dsimp only
  rw [if_pos hrange]
  unfold validateSubgroupHeader
  rw [hinfo]
  dsimp only
  rw [VarInt.Decode_vi_append hta]
  dsimp only
  rw [VarInt.Decode_vi_append hg]
  dsimp only
  obtain ⟨x, hsgid⟩ :=
    @subgroupHeaderSgid_encode sgPresent _ hsg
      (priority :: encodeSubObjs extPresent os)
  rw [hsgid]
  dsimp only
  rw [readFull_one_cons]
  dsimp only
  rw [subgroupLoop_encode_violation_start os hwf none 0 [] hbad]

instance (ext : Bool) (o : SubObjSpec) : Decidable (WFObj ext o) := by
  unfold WFObj
  infer_instance

/-- Witness for C8: a type-0x08 subgroup stream with two complete objects
whose ids are 5 and 5. -/
theorem C8_subgroup_object_ordering_witness :
    validateDataStream
      (vi 8 ++ vi 1 ++ vi 2 ++ (if (false : Bool) then vi 0 else []) ++
        0 :: encodeSubObjs false
          [{ objectID := 5, payload := [0xAA] }, { objectID := 5, payload := [0xBB] }]) =
      .error (.protocol "object IDs must be ascending") :=
  C8_subgroup_object_ordering 8 1 2 0 0 false false
    [{ objectID := 5, payload := [0xAA] }, { objectID := 5, payload := [0xBB] }]
    rfl (by norm_num) (by norm_num) (by norm_num) (by norm_num) (by decide)
    (by simp [List.chain'_cons])

/-! Standalone-FETCH range inversion (C7): an encoder for the standalone
FETCH payload and the proof that an inverted range always fails — with the
`ErrValidation` classification the code actually uses. -/

/-- Wire encoding of a namespace tuple's fields. -/
def encodeTupleFields : List (List Nat) → List Nat
  | [] => []
  | f :: fs => vi f.length ++ (f ++ encodeTupleFields fs)

/-- Wire encoding of a namespace tuple (field count, then fields). -/
def encodeTuple (ns : List (List Nat)) : List Nat :=
  vi ns.length ++ encodeTupleFields ns

theorem readTupleFields_encode (ns : List (List Nat))
    (hf : ∀ f ∈ ns, f.length < 2 ^ 62) (rest : List Nat) :
    readTupleFields ns.length (encodeTupleFields ns ++ rest) = .ok (ns, rest) := by
  induction ns with
  | nil => rfl
  | cons f fs ih =>
    show readTupleFields (fs.length + 1) _ = _
    unfold readTupleFields
    unfold encodeTupleFields
    simp only [List.append_assoc]
    rw [VarInt.Decode_vi_append (hf f (by simp))]
    dsimp only
    rw [readFull_exact]
    dsimp only
    rw [ih (fun g hg => hf g (by simp [hg]))]

theorem readTuple_encode (ns : List (List Nat)) (hns : ns.length < 2 ^ 62)
    (hf : ∀ f ∈ ns, f.length < 2 ^ 62) (rest : List Nat) :
    readTuple (encodeTuple ns ++ rest) = .ok (ns, rest) := by
  unfold readTuple encodeTuple
  rw [List.append_assoc, VarInt.Decode_vi_append hns]
  dsimp only
  exact readTupleFields_encode ns hf rest

/-- Wire encoding of a standalone FETCH payload (fetch type 1) with an
arbitrary range. -/
def standaloneFetchPayload (requestID prio order : Nat) (ns : List (List Nat))
    (name : List Nat) (sg so eg eo : Nat) : List Nat :=
  vi requestID ++ prio :: order ::
    (vi 1 ++ (encodeTuple ns ++ (vi name.length ++ (name ++
      (vi sg ++ (vi so ++ (vi eg ++ vi eo)))))))

/-- C7 (amended): every standalone FETCH whose end location is strictly
below its start location in `Location.Less` order is rejected, and the
rejection is the `ErrValidation`-wrapped error of `validateFetch`, with the
state unchanged — not a ProtocolViolation as the original claim says. -/
theorem C7_range_inversion_fails (st : MoQTValidator)
    (requestID prio order : Nat) (ns : List (List Nat)) (name : List Nat)
    (sg so eg eo : Nat)
    (hreq : requestID % 2 = 0) (hreqmax : requestID ≤ st.maxRequestIDClient)
    (hreqb : requestID < 2 ^ 62) (horder : order ≤ 2)
    (hns : ns.length < 2 ^ 62) (hf : ∀ f ∈ ns, f.length < 2 ^ 62)
    (hname : name.length < 2 ^ 62)
    (hsg : sg < 2 ^ 62) (hso : so < 2 ^ 62) (heg : eg < 2 ^ 62) (heo : eo < 2 ^ 62)
    (hlt : Location.Less { GroupID := eg, ObjectID := eo }
      { GroupID := sg, ObjectID := so } = true) :
    validateFetch st (standaloneFetchPayload requestID prio order ns name sg so eg eo) =
      (.error (.validation "end location must be >= start location"), st) := by
  have hrid : validateRequestID st requestID true = .ok () := by
    unfold validateRequestID
    rw [if_pos rfl, if_neg (by omega), if_neg (by omega)]
  unfold standaloneFetchPayload validateFetch
  rw [VarInt.Decode_vi_append hreqb]
  dsimp only
  rw [hrid]
  dsimp only
  rw [readFull_one_cons]
  dsimp only
  rw [readFull_one_cons]
  dsimp only
  rw [if_neg (by simp only [List.headI]; omega)]
  rw [VarInt.Decode_vi_append (by norm_num : (1 : Nat) < 2 ^ 62)]
  dsimp only
  rw [if_neg (by norm_num), if_pos rfl]
  unfold fetchStandalone
  rw [readTuple_encode ns hns hf]
  dsimp only
  rw [VarInt.Decode_vi_append hname]
  dsimp only
  rw [readFull_exact]
  dsimp only
  rw [VarInt.Decode_vi_append hsg]
  dsimp only
  rw [VarInt.Decode_vi_append hso]
  dsimp only
  rw [VarInt.Decode_vi_append heg]
  dsimp only
  have heod : VarInt.Decode (vi eo) = .ok (eo, (vi eo).length, []) := by
    simpa using VarInt.Decode_vi_append heo []
  rw [heod]
  dsimp only
  rw [if_pos hlt]

/-- Witness for C7 at start (5,0), end (4,0) on the fresh session. -/
theorem C7_range_inversion_fails_witness :
    validateFetch NewMoQTValidator
      (standaloneFetchPayload 0 0 0 [[0x61]] [0x62] 5 0 4 0) =
      (.error (.validation "end location must be >= start location"), NewMoQTValidator) :=
  C7_range_inversion_fails NewMoQTValidator 0 0 0 [[0x61]] [0x62] 5 0 4 0
    (by norm_num) (by norm_num) (by norm_num) (by norm_num) (by norm_num)
    (by decide) (by norm_num) (by norm_num) (by norm_num) (by norm_num) (by norm_num)
    (by decide)

theorem readFull_too_long {n : Nat} {data : List Nat} (h : data.length < n) :
    ∃ e, readFull n data = .error e := by
  unfold readFull
  rw [if_neg (by omega)]
  split
  · exact ⟨.eof, rfl⟩
  · exact ⟨.unexpectedEof, rfl⟩

/-- C6 (amended): if the validator accepts a control message and consumes
the buffer exactly, then validating the buffer with its last byte removed
fails with an `ErrValidation`-wrapped error (the truncation lands either in
the 16-bit length field or in the length-framed payload, both of which are
reported as validation errors before any dispatch).  For stream and
datagram channels the original claim is false (see the counterexample). -/
theorem C6_control_truncation (st st2 : MoQTValidator) (data : List Nat)
    (res : CtrlResult)
    (h : validateControlMessage st data = (.ok (res, []), st2)) (st3 : MoQTValidator) :
    isValidationErr (validateControlMessage st3 data.dropLast).1 = true := by
  unfold validateControlMessage at h
  rcases h1 : VarInt.Decode data with e | ⟨msgType, n1, d1⟩
  · rw [h1] at h
    exact absurd (congrArg Prod.fst h) (by simp)
  rw [h1] at h
  dsimp only at h
  by_cases hval : ¬ isValidMessageType msgType = true
  · rw [if_pos hval] at h
    exact absurd (congrArg Prod.fst h) (by simp)
  rw [if_neg hval] at h
  rcases d1 with _ | ⟨hi, tl⟩
  · exact absurd (congrArg Prod.fst h) (by simp)
  rcases tl with _ | ⟨lo, d2⟩
  · exact absurd (congrArg Prod.fst h) (by simp)
  dsimp only at h
  rcases h2 : readFull (hi * 256 + lo) d2 with e | ⟨payload, rest⟩
  · rw [h2] at h
    dsimp only at h
    exact absurd (congrArg Prod.fst h) (by simp)
  rw [h2] at h
  dsimp only at h
  have hrest : rest = [] := by
    by_cases c1 : msgType = ClientSetup
    · rw [if_pos c1] at h
      rcases h3 : validateClientSetup payload with e | ⟨r, s⟩
      · simp only [h3] at h
        exact absurd (congrArg Prod.fst h) (by simp)
      · simp only [h3] at h
        have h4 := congrArg Prod.fst h
        simp only [Except.ok.injEq, Prod.mk.injEq] at h4
        exact h4.2
    rw [if_neg c1] at h
    by_cases c2 : msgType = ServerSetup
    · rw [if_pos c2] at h
      rcases h3 : validateServerSetup payload with e | ⟨r, s⟩
      · simp only [h3] at h
        exact absurd (congrArg Prod.fst h) (by simp)
      · simp only [h3] at h
        have h4 := congrArg Prod.fst h
        simp only [Except.ok.injEq, Prod.mk.injEq] at h4
        exact h4.2
    rw [if_neg c2] at h
    by_cases c3 : msgType = Subscribe
    · rw [if_pos c3] at h
      rcases h3 : validateSubscribe st payload with ⟨sres, v2⟩
      rw [h3] at h
      cases sres with
      | error e =>
        dsimp only at h
        exact absurd (congrArg Prod.fst h) (by simp)
      | ok pr =>
        obtain ⟨r, s⟩ := pr
        dsimp only at h
        have h4 := congrArg Prod.fst h
        simp only [Except.ok.injEq, Prod.mk.injEq] at h4
        exact h4.2
    rw [if_neg c3] at h
    by_cases c4 : msgType = SubscribeOK
    · rw [if_pos c4] at h
      rcases h3 : validateSubscribeOK st payload with ⟨sres, v2⟩
      rw [h3] at h
      cases sres with
      | error e =>
        dsimp only at h
        exact absurd (congrArg Prod.fst h) (by simp)
      | ok pr =>
        obtain ⟨r, s⟩ := pr
        dsimp only at h
        have h4 := congrArg Prod.fst h
        simp only [Except.ok.injEq, Prod.mk.injEq] at h4
        exact h4.2
    rw [if_neg c4] at h
    by_cases c5 : msgType = Fetch
    · rw [if_pos c5] at h
      rcases h3 : validateFetch st payload with ⟨sres, v2⟩
      rw [h3] at h
      cases sres with
      | error e =>
        dsimp only at h
        exact absurd (congrArg Prod.fst h) (by simp)
      | ok pr =>
        obtain ⟨r, s⟩ := pr
        dsimp only at h
        have h4 := congrArg Prod.fst h
        simp only [Except.ok.injEq, Prod.mk.injEq] at h4
        exact h4.2
    rw [if_neg c5] at h
    by_cases c6 : msgType = Announce
    · rw [if_pos c6] at h
      rcases h3 : validateAnnounce st payload with ⟨sres, v2⟩
      rw [h3] at h
      cases sres with
      | error e =>
        dsimp only at h
        exact absurd (congrArg Prod.fst h) (by simp)
      | ok pr =>
        obtain ⟨r, s⟩ := pr
        dsimp only at h
        have h4 := congrArg Prod.fst h
        simp only [Except.ok.injEq, Prod.mk.injEq] at h4
        exact h4.2
    rw [if_neg c6] at h
    by_cases c7 : msgType = Goaway
    · rw [if_pos c7] at h
      rcases h3 : validateGoaway payload with e | ⟨uri, s⟩
      · simp only [h3] at h
        exact absurd (congrArg Prod.fst h) (by simp)
      · simp only [h3] at h
        have h4 := congrArg Prod.fst h
        simp only [Except.ok.injEq, Prod.mk.injEq] at h4
        exact h4.2
    rw [if_neg c7] at h
    by_cases c8 : msgType = MaxRequestID
    · rw [if_pos c8] at h
      rcases h3 : validateMaxRequestID payload with e | ⟨value, s⟩
      · simp only [h3] at h
        exact absurd (congrArg Prod.fst h) (by simp)
      · simp only [h3] at h
        have h4 := congrArg Prod.fst h
        simp only [Except.ok.injEq, Prod.mk.injEq] at h4
        exact h4.2
    rw [if_neg c8] at h
    by_cases c9 : msgType = TrackStatusRequest
    · rw [if_pos c9] at h
      rcases h3 : validateTrackStatusRequest st payload with ⟨sres, v2⟩
      rw [h3] at h
      cases sres with
      | error e =>
        dsimp only at h
        exact absurd (congrArg Prod.fst h) (by simp)
      | ok pr =>
        obtain ⟨r, s⟩ := pr
        dsimp only at h
        have h4 := congrArg Prod.fst h
        simp only [Except.ok.injEq, Prod.mk.injEq] at h4
        exact h4.2
    rw [if_neg c9] at h
    have h4 := congrArg Prod.fst h
    simp only [Except.ok.injEq, Prod.mk.injEq] at h4
    exact h4.2
  subst hrest
  obtain ⟨-, hdrop, hle, -, hsum⟩ := readFull_ok_inv h2
  have hlen2 : d2.length = hi * 256 + lo := by
    simp at hsum
    omega
  obtain ⟨pre, hdata, hpre, hn, hdet⟩ := VarInt.Decode_ok_inv h1
  subst hdata
  rcases List.eq_nil_or_concat d2 with hd2 | ⟨d2x, x, hd2⟩
  · subst hd2
    have hdl : (pre ++ hi :: lo :: ([] : List Nat)).dropLast = pre ++ [hi] := by
      rw [show pre ++ hi :: lo :: ([] : List Nat) = (pre ++ [hi]) ++ [lo] by simp]
      exact List.dropLast_concat
    rw [hdl]
    unfold validateControlMessage
    rw [hdet [hi]]
    dsimp only
    rw [if_neg hval]
    rfl
  · subst hd2
    have hdl : (pre ++ hi :: lo :: d2x.concat x).dropLast = pre ++ hi :: lo :: d2x := by
      rw [show pre ++ hi :: lo :: d2x.concat x = (pre ++ hi :: lo :: d2x) ++ [x] by simp]
      exact List.dropLast_concat
    rw [hdl]
    unfold validateControlMessage
    rw [hdet (hi :: lo :: d2x)]
    dsimp only
    rw [if_neg hval]
    obtain ⟨e, hrf⟩ :=
      @readFull_too_long (hi * 256 + lo) d2x (by simp at hlen2; omega)
    rw [hrf]
    rfl

/-- Witness for C6 at a MAX_REQUEST_ID control frame that is accepted with
the buffer exactly consumed. -/
theorem C6_control_truncation_witness :
    isValidationErr (validateControlMessage NewMoQTValidator
      (List.dropLast [0x15, 0, 1, 5])).1 = true :=
  C6_control_truncation NewMoQTValidator NewMoQTValidator [0x15, 0, 1, 5]
    { typeValue := 0x15, length := 1, details := .maxRequestID 5 } rfl NewMoQTValidator
